import Mathlib

/-!
Verification of the arc-library persistence core against its specification.

The definitions below are a shallow embedding of the Go sources:
* `internal/library/kvstore.go` — the key-value engine (`KVStore`);
* the relational engine (`Store`, `store.go`) — SQL statements and the
  schema from `initSchema`;
* `internal/cmd/flashcard.go` — the CLI review command's quality guard.

Modelling conventions:
* `time.Time` values are integers (a day count); `AddDate(0, 0, n)` is `+ n`.
* `float64` is `ℚ`; the SM-2 constants 0.1, 0.08, 0.02, 1.3, 2.5 are exact.
* Go `error` values: every error constructed in the library package comes
  from `fmt.Errorf`, modelled as `GoError.generic msg`.  The arc-sdk store
  sentinel `store.ErrNotFound` is modelled by `kvGet` returning `none`.
* Key-value blobs are tagged values (`KVVal`); `json.Unmarshal` into a type
  succeeds exactly on the blob of that type, and fails on any other shape
  (the `corrupt` constructor stands for bytes that parse as nothing).
* Storage-level failures (I/O errors other than not-found) do not exist in
  the pure map model, so code branches that propagate them are dead here.
-/

set_option linter.unusedVariables false

/-- A Go error value.  The library package creates errors exclusively with
`fmt.Errorf`, so the model has a single generic constructor carrying the
formatted message. -/
inductive GoError where
  | generic (msg : String)
deriving DecidableEq, Repr

/-- Document entity, from `internal/library/models.go` (`type Document struct`).
The free-form `Meta` map is omitted: no claim mentions it.  `Type` is named
`ty` (Lean keyword), `Status` is a plain string as in Go. -/
structure Document where
  id        : String := ""
  ty        : String := ""
  path      : String := ""
  source    : String := ""
  sourceID  : String := ""
  title     : String := ""
  authors   : List String := []
  abstract  : String := ""
  fullText  : String := ""
  tags      : List String := []
  notes     : String := ""
  rating    : Int := 0
  readAt    : Int := 0
  status    : String := ""
  createdAt : Int := 0
  updatedAt : Int := 0
deriving DecidableEq, Repr

/-- Collection entity, from `models.go` (`type Collection struct`). -/
structure Collection where
  id          : String := ""
  name        : String := ""
  description : String := ""
  documentIDs : List String := []
  createdAt   : Int := 0
  updatedAt   : Int := 0
deriving DecidableEq, Repr

/-- Annotation entity, from `models.go` (`type Annotation struct`). -/
structure Annot where
  id         : String := ""
  documentID : String := ""
  ty         : String := ""
  content    : String := ""
  page       : Int := 0
  position   : String := ""
  color      : String := ""
  createdAt  : Int := 0
deriving DecidableEq, Repr

/-- ReadingSession entity, from `models.go` (`type ReadingSession struct`). -/
structure ReadingSession where
  id         : String := ""
  documentID : String := ""
  startAt    : Int := 0
  endAt      : Int := 0
  pagesRead  : Int := 0
  notes      : String := ""
deriving DecidableEq, Repr

/-- Flashcard entity, from `models.go` (`type Flashcard struct`). -/
structure Flashcard where
  id         : String := ""
  documentID : String := ""
  ty         : String := ""
  front      : String := ""
  back       : String := ""
  cloze      : String := ""
  tags       : List String := []
  dueAt      : Int := 0
  interval   : Int := 0
  ease       : Rat := 0
  lastReview : Int := 0
  createdAt  : Int := 0
  updatedAt  : Int := 0
deriving DecidableEq, Repr

/-- FlashcardReview audit record, from `models.go`
(`type FlashcardReview struct`). -/
structure FlashcardReview where
  id           : String := ""
  flashcardID  : String := ""
  quality      : Int := 0
  reviewedAt   : Int := 0
  prevInterval : Int := 0
  prevEase     : Rat := 0
deriving DecidableEq, Repr

/-- Document list filter, from `models.go` (`type ListOptions struct`). -/
structure ListOptions where
  tag    : String := ""
  source : String := ""
  search : String := ""
  ty     : String := ""
  limit  : Int := 0
deriving DecidableEq, Repr

/-- Flashcard list filter, from `models.go`
(`type FlashcardListOptions struct`). -/
structure FlashcardListOptions where
  documentID : String := ""
  tag        : String := ""
  due        : Bool := false
  limit      : Int := 0
deriving DecidableEq, Repr

/-- Modelled from the spec: the Task entity ("simple owned records with
status/filter fields", spec section 3).  Its Go struct definition is not
under src/ (only its SQL schema, callers and the CLI are); the key-value
engine rejects every Task operation regardless of the record's content, so
only the fields named by the SQL statements are kept.  Named `LibTask`
because `Task` is taken by the Lean prelude. -/
structure LibTask where
  id           : String := ""
  description  : String := ""
  collectionID : String := ""
  status       : String := ""
  priority     : String := ""
  tags         : List String := []
  dueAt        : Option Int := none
  createdAt    : Int := 0
  updatedAt    : Int := 0
deriving DecidableEq, Repr

/-- A value stored under one key of the arc-sdk key-value store.  Each
constructor is one shape of bytes the Go code writes: a JSON string list
(roster / child-reference indexes), raw ID bytes (unique secondary
indexes), one entity blob per kind, or bytes that fail to parse as any of
them (`corrupt`). -/
inductive KVVal where
  | strList (ids : List String)
  | idBytes (id : String)
  | docBlob (d : Document)
  | collBlob (c : Collection)
  | annBlob (a : Annot)
  | sessBlob (s : ReadingSession)
  | cardBlob (c : Flashcard)
  | reviewBlob (r : FlashcardReview)
  | corrupt
deriving DecidableEq, Repr

/-- The flat key-value store: an association list, newest binding first. -/
def KV : Type := List (String × KVVal)

instance : DecidableEq KV := inferInstanceAs (DecidableEq (List (String × KVVal)))

/-- `kv.Get`: the bound value, or `none` for `store.ErrNotFound`. -/
def kvGet (kv : KV) (k : String) : Option KVVal :=
  match kv.find? (fun e => e.1 == k) with
  | some e => some e.2
  | none => none

/-- `kv.Set`: bind `k` to `v`, replacing any previous binding. -/
def kvSet (kv : KV) (k : String) (v : KVVal) : KV :=
  (k, v) :: kv.filter (fun e => e.1 != k)

/-- `kv.Delete`: remove the binding of `k` (no error if absent). -/
def kvDelete (kv : KV) (k : String) : KV :=
  kv.filter (fun e => e.1 != k)

/-- `json.Unmarshal(data, &ids)` for a `[]string`: succeeds only on a JSON
string-list blob. -/
def asStrList : KVVal → Option (List String)
  | .strList ids => some ids
  | _ => none

/-- `json.Unmarshal` into a `Document`. -/
def asDoc : KVVal → Option Document
  | .docBlob d => some d
  | _ => none

/-- `json.Unmarshal` into a `Collection`. -/
def asColl : KVVal → Option Collection
  | .collBlob c => some c
  | _ => none

/-- `json.Unmarshal` into an `Annotation` value. -/
def asAnn : KVVal → Option Annot
  | .annBlob a => some a
  | _ => none

/-- `json.Unmarshal` into a `ReadingSession`. -/
def asSess : KVVal → Option ReadingSession
  | .sessBlob s => some s
  | _ => none

/-- `json.Unmarshal` into a `Flashcard`. -/
def asCard : KVVal → Option Flashcard
  | .cardBlob c => some c
  | _ => none

/-- `string(data)` applied to a secondary-index value: the raw ID bytes.
Reading any other blob shape as a string yields some byte string that no
claim depends on; the model maps those to the empty string. -/
def rawString : KVVal → String
  | .idBytes s => s
  | _ => ""

/-- `generateKey` from kvstore.go:29: `fmt.Sprintf("arc-library:%s:%s", prefix, id)`. -/
def generateKey (pre id : String) : String :=
  "arc-library:" ++ pre ++ ":" ++ id

/-! ## The SM-2 computation (kvstore.go:1062-1098, store.go ReviewFlashcard)

Both engines inline byte-for-byte identical arithmetic; it is factored out
here so the two embeddings share it. -/

/-- The two sequential clamps of the updated ease
(`if ease < 1.3 { ease = 1.3 }; if ease > 2.5 { ease = 2.5 }`). -/
def sm2ClampEase (e : Rat) : Rat :=
  let e1 := if e < 1.3 then 1.3 else e
  if e1 > 2.5 then 2.5 else e1

/-- `ease = ease + (0.1 - (float64(5-quality)*(0.08+float64(5-quality)*0.02)))`
followed by the clamps. -/
def sm2Ease (prevEase : Rat) (quality : Int) : Rat :=
  sm2ClampEase (prevEase + (0.1 - ((5 - quality : Int) : Rat) * (0.08 + ((5 - quality : Int) : Rat) * 0.02)))

/-- Go's `int(x)` conversion from `float64`: truncation toward zero. -/
def goTrunc (x : Rat) : Int :=
  if 0 ≤ x then ⌊x⌋ else -⌊-x⌋

/-- The new interval: 1 on failure (`quality < 3`), else 1 / 6 /
`int(float64(prevInterval) * ease)` depending on the previous interval. -/
def sm2Interval (prevInterval : Int) (ease : Rat) (quality : Int) : Int :=
  if quality < 3 then 1
  else if prevInterval = 0 then 1
  else if prevInterval = 1 then 6
  else goTrunc ((prevInterval : Rat) * ease)

/-- The `prevEase == 0` default both engines apply before the update
(`if prevEase == 0 { prevEase = 2.5 }`). -/
def sm2PrevEase (e : Rat) : Rat :=
  if e = 0 then 2.5 else e

/-! ## Shared list helpers mirroring Go idioms -/

/-- `strings.EqualFold` (ASCII-adequate model: compare lowercased). -/
def eqFold (a b : String) : Bool :=
  a.toLower == b.toLower

/-- `strings.Contains(haystack, needle)`. -/
def strContains (h n : String) : Bool :=
  decide (n.data <:+: h.data)

/-- The in-place insertion sort both stores use
(`for i := 1; ...; for j > 0 && le-violation { swap }`), as a stable list
insertion sort: `le a b` means `a` may stay before `b`. -/
def goInsertOrd (le : α → α → Bool) (x : α) : List α → List α
  | [] => [x]
  | y :: ys => if le y x then y :: goInsertOrd le x ys else x :: y :: ys

/-- Stable insertion sort with respect to `le`. -/
def goInsertionSort (le : α → α → Bool) : List α → List α
  | [] => []
  | x :: xs => goInsertOrd le x (goInsertionSort le xs)

/-- Unwrap an ignored `Except` as the Go callers do when they discard the
returned error: keep the new state on success, keep the old one on error. -/
def orKeep (r : Except GoError KV) (kv : KV) : KV :=
  match r with
  | .ok kv2 => kv2
  | .error _ => kv

namespace KVStore

/-! ## Key-value engine, from `internal/library/kvstore.go`.

Every mutating operation takes `now : Int`, the value of each `time.Now()`
call inside the Go function (the model freezes the clock for the duration
of one operation). -/

/-- `getDocumentIndex` (kvstore.go:326) composed with the caller-side
"treat unmarshal failure or absence as empty" fallback that `ListDocuments`
(kvstore.go:131-136) applies. -/
def documentRoster (kv : KV) : List String :=
  match kvGet kv (generateKey "index" "documents") with
  | none => []
  | some v =>
    match asStrList v with
    | some ids => ids
    | none => []

/-- `addToDocumentIndex` (kvstore.go:282-301).  Its error returns (roster
blob unmarshal failure) are ignored by the only caller, so the state is
simply kept unchanged in that case. -/
def addToDocumentIndex (docID : String) (kv : KV) : KV :=
  let indexKey := generateKey "index" "documents"
  match kvGet kv indexKey with
  | none => kvSet kv indexKey (.strList [docID])
  | some v =>
    match asStrList v with
    | none => kv
    | some ids =>
      if docID ∈ ids then kv
      else kvSet kv indexKey (.strList (ids ++ [docID]))

/-- `removeFromDocumentIndex` (kvstore.go:303-324); error returns are
ignored by `DeleteDocument`. -/
def removeFromDocumentIndex (docID : String) (kv : KV) : KV :=
  let indexKey := generateKey "index" "documents"
  match kvGet kv indexKey with
  | none => kv
  | some v =>
    match asStrList v with
    | none => kv
    | some ids => kvSet kv indexKey (.strList (ids.filter (fun id => id ≠ docID)))

/-- `AddDocument` (kvstore.go:35-75).  Returns the document with its
assigned ID and timestamps together with the new state; the marshal/Set
error paths cannot fire in the pure model and index-write errors are
ignored by the Go code itself. -/
def AddDocument (now : Int) (doc : Document) (kv : KV) : Document × KV :=
  let doc := { doc with
    id := if doc.id = "" then "doc:" ++ toString now else doc.id,
    createdAt := now, updatedAt := now }
  let kv := kvSet kv (generateKey "doc" doc.id) (.docBlob doc)
  let kv :=
    if doc.path ≠ "" then
      kvSet kv (generateKey "doc:path" doc.path) (.idBytes doc.id)
    else kv
  let kv :=
    if doc.source ≠ "" ∧ doc.sourceID ≠ "" then
      kvSet kv (generateKey "doc:source" (doc.source ++ ":" ++ doc.sourceID)) (.idBytes doc.id)
    else kv
  (doc, addToDocumentIndex doc.id kv)

/-- `GetDocument` (kvstore.go:77-92): absence is `ok none`, a blob that
fails to unmarshal is an error. -/
def GetDocument (kv : KV) (id : String) : Except GoError (Option Document) :=
  match kvGet kv (generateKey "doc" id) with
  | none => .ok none
  | some v =>
    match asDoc v with
    | some d => .ok (some d)
    | none => .error (.generic "unmarshal document")

/-- `GetDocumentByPath` (kvstore.go:94-105). -/
def GetDocumentByPath (kv : KV) (path : String) : Except GoError (Option Document) :=
  match kvGet kv (generateKey "doc:path" path) with
  | none => .ok none
  | some v => GetDocument kv (rawString v)

/-- `GetDocumentBySourceID` (kvstore.go:107-119). -/
def GetDocumentBySourceID (kv : KV) (source sourceID : String) : Except GoError (Option Document) :=
  match kvGet kv (generateKey "doc:source" (source ++ ":" ++ sourceID)) with
  | none => .ok none
  | some v => GetDocument kv (rawString v)

/-- The filter block of `ListDocuments` (kvstore.go:149-179): tag
(case-insensitive membership), source (exact), search (lower-cased
substring over title, abstract, notes, full text), type (exact). -/
def docMatches (opts : ListOptions) (d : Document) : Bool :=
  (opts.tag == "" || d.tags.any (fun t => eqFold t opts.tag)) &&
  (opts.source == "" || d.source == opts.source) &&
  (opts.search == "" ||
    (strContains d.title.toLower opts.search.toLower ||
     strContains d.abstract.toLower opts.search.toLower ||
     strContains d.notes.toLower opts.search.toLower ||
     strContains d.fullText.toLower opts.search.toLower)) &&
  (opts.ty == "" || d.ty == opts.ty)

/-- The `opts.Limit > 0 && len(docs) >= opts.Limit` break test. -/
def limitHit (limit : Int) (n : Nat) : Bool :=
  decide (0 < limit) && decide (limit ≤ (n : Int))

/-- The id loop of `ListDocuments` (kvstore.go:139-186): skip ids whose
blob is absent or unreadable, apply the filters, stop once the limit is
reached. -/
def listDocsLoop (kv : KV) (opts : Option ListOptions) : List String → List Document → List Document
  | [], docs => docs
  | id :: rest, docs =>
    match GetDocument kv id with
    | .error _ => listDocsLoop kv opts rest docs
    | .ok none => listDocsLoop kv opts rest docs
    | .ok (some d) =>
      if (match opts with | some o => docMatches o d | none => true) then
        let docs2 := docs ++ [d]
        if (match opts with | some o => limitHit o.limit docs2.length | none => false) then docs2
        else listDocsLoop kv opts rest docs2
      else listDocsLoop kv opts rest docs

/-- `ListDocuments` (kvstore.go:121-189).  The only error return in the Go
code is a storage failure reading the roster, which the pure model cannot
produce; a roster that fails to unmarshal is treated as empty. -/
def ListDocuments (kv : KV) (opts : Option ListOptions) : List Document :=
  listDocsLoop kv opts (documentRoster kv) []

/-- The path-index maintenance block of `UpdateDocument`
(kvstore.go:214-220): when the path changed, the stale entry is deleted and
the new one written (unless the new path is empty). -/
def updatePathIndex (doc existing : Document) (kv : KV) : KV :=
  if existing.path = doc.path then kv
  else
    let kv := kvDelete kv (generateKey "doc:path" existing.path)
    if doc.path ≠ "" then kvSet kv (generateKey "doc:path" doc.path) (.idBytes doc.id)
    else kv

/-- The source-index maintenance block of `UpdateDocument`
(kvstore.go:222-232): when the source+sourceID pair changed, the stale
entry is deleted (when the old pair was complete) and the new one written
(when the new pair is complete). -/
def updateSourceIndex (doc existing : Document) (kv : KV) : KV :=
  if existing.source = doc.source ∧ existing.sourceID = doc.sourceID then kv
  else
    let kv :=
      if existing.source ≠ "" ∧ existing.sourceID ≠ "" then
        kvDelete kv (generateKey "doc:source" (existing.source ++ ":" ++ existing.sourceID))
      else kv
    if doc.source ≠ "" ∧ doc.sourceID ≠ "" then
      kvSet kv (generateKey "doc:source" (doc.source ++ ":" ++ doc.sourceID)) (.idBytes doc.id)
    else kv

/-- `UpdateDocument` (kvstore.go:191-235). -/
def UpdateDocument (now : Int) (doc : Document) (kv : KV) : Except GoError (Document × KV) :=
  match GetDocument kv doc.id with
  | .error e => .error e
  | .ok none => .error (.generic ("document not found: " ++ doc.id))
  | .ok (some existing) =>
    let doc := { doc with createdAt := existing.createdAt, updatedAt := now }
    let kv := kvSet kv (generateKey "doc" doc.id) (.docBlob doc)
    .ok (doc, updateSourceIndex doc existing (updatePathIndex doc existing kv))

/-- `getCollectionByID` (kvstore.go:439-454). -/
def getCollectionByID (kv : KV) (id : String) : Except GoError (Option Collection) :=
  match kvGet kv (generateKey "collection" id) with
  | none => .ok none
  | some v =>
    match asColl v with
    | some c => .ok (some c)
    | none => .error (.generic "unmarshal collection")

/-- The collection roster with the caller-side empty fallback of
`ListCollections` (kvstore.go:472-483). -/
def collectionRoster (kv : KV) : List String :=
  match kvGet kv (generateKey "index" "collections") with
  | none => []
  | some v =>
    match asStrList v with
    | some ids => ids
    | none => []

/-- `addToCollectionIndex` (kvstore.go:590-605); errors ignored by the
caller. -/
def addToCollectionIndex (collectionID : String) (kv : KV) : KV :=
  let indexKey := generateKey "index" "collections"
  match kvGet kv indexKey with
  | none => kvSet kv indexKey (.strList [collectionID])
  | some v =>
    match asStrList v with
    | none => kv
    | some ids =>
      if collectionID ∈ ids then kv
      else kvSet kv indexKey (.strList (ids ++ [collectionID]))

/-- `ListCollections` (kvstore.go:469-507): roster ids, skipping unreadable
blobs, insertion-sorted ascending by name. -/
def ListCollections (kv : KV) : List Collection :=
  let collections := (collectionRoster kv).filterMap (fun id =>
    match getCollectionByID kv id with
    | .ok (some c) => some c
    | _ => none)
  goInsertionSort (fun a b => !(a.name > b.name)) collections

/-- `CreateCollection` (kvstore.go:399-424): no name-uniqueness check; the
generated ID is `collection:<nanos>`. -/
def CreateCollection (now : Int) (name description : String) (kv : KV) : Collection × KV :=
  let c : Collection := { id := "collection:" ++ toString now, name := name,
                          description := description, documentIDs := [],
                          createdAt := now, updatedAt := now }
  let kv := kvSet kv (generateKey "collection" c.id) (.collBlob c)
  (c, addToCollectionIndex c.id kv)

/-- `AddToCollection` (kvstore.go:509-535): membership is checked before
appending, so adding an already-present document is a no-op. -/
def AddToCollection (now : Int) (collectionID documentID : String) (kv : KV) : Except GoError KV :=
  match getCollectionByID kv collectionID with
  | .error e => .error e
  | .ok none => .error (.generic ("collection not found: " ++ collectionID))
  | .ok (some c) =>
    if documentID ∈ c.documentIDs then .ok kv
    else
      let c := { c with documentIDs := c.documentIDs ++ [documentID], updatedAt := now }
      .ok (kvSet kv (generateKey "collection" c.id) (.collBlob c))

/-- `RemoveFromCollection` (kvstore.go:537-563). -/
def RemoveFromCollection (now : Int) (collectionID documentID : String) (kv : KV) : Except GoError KV :=
  match getCollectionByID kv collectionID with
  | .error e => .error e
  | .ok none => .error (.generic ("collection not found: " ++ collectionID))
  | .ok (some c) =>
    let c := { c with documentIDs := c.documentIDs.filter (fun did => did ≠ documentID),
                      updatedAt := now }
    .ok (kvSet kv (generateKey "collection" c.id) (.collBlob c))

/-- The annotations child index with the caller-side empty fallback of
`GetAnnotations` (kvstore.go:671-682). -/
def annRoster (kv : KV) (documentID : String) : List String :=
  match kvGet kv (generateKey "index" ("doc:annotations:" ++ documentID)) with
  | none => []
  | some v =>
    match asStrList v with
    | some ids => ids
    | none => []

/-- `GetAnnotations` (kvstore.go:667-702): indexed ids, skipping orphaned
(absent) and unreadable blobs. -/
def GetAnnotations (kv : KV) (documentID : String) : List Annot :=
  (annRoster kv documentID).filterMap (fun id =>
    match kvGet kv (generateKey "annotation" id) with
    | none => none
    | some v => asAnn v)

/-- `removeFromDocumentAnnotationsIndex` (kvstore.go:746-764); its error
return is discarded by the only caller (`DeleteAnnotation`). -/
def removeFromDocumentAnnotationsIndex (documentID annotationID : String) (kv : KV) : KV :=
  let indexKey := generateKey "index" ("doc:annotations:" ++ documentID)
  match kvGet kv indexKey with
  | none => kv
  | some v =>
    match asStrList v with
    | none => kv
    | some ids => kvSet kv indexKey (.strList (ids.filter (fun id => id ≠ annotationID)))

/-- `DeleteAnnotation` (kvstore.go:704-726). -/
def DeleteAnnot (id : String) (kv : KV) : Except GoError KV :=
  match kvGet kv (generateKey "annotation" id) with
  | none => .ok kv
  | some v =>
    match asAnn v with
    | none => .error (.generic "unmarshal annotation")
    | some a =>
      let kv := removeFromDocumentAnnotationsIndex a.documentID id kv
      .ok (kvDelete kv (generateKey "annotation" id))

/-- One step of the collection-removal loop of `DeleteDocument`
(kvstore.go:248-255): `s.RemoveFromCollection(c.ID, id)` with the returned
error discarded. -/
def removeFromAllStep (now : Int) (id : String) (st : KV) (c : Collection) : KV :=
  orKeep (RemoveFromCollection now c.id id st) st

/-- One step of the annotation-cascade loop of `DeleteDocument`
(kvstore.go:257-261): `s.DeleteAnnotation(a.ID)` with the returned error
discarded. -/
def deleteAnnStep (st : KV) (a : Annot) : KV :=
  orKeep (DeleteAnnot a.id st) st

/-- `DeleteDocument` (kvstore.go:237-278): remove membership in every
collection, cascade-delete annotations, drop both secondary-index entries,
drop the roster entry, delete the blob; deleting an absent id returns
success without touching the store. -/
def DeleteDocument (now : Int) (id : String) (kv : KV) : Except GoError KV :=
  match GetDocument kv id with
  | .error e => .error e
  | .ok none => .ok kv
  | .ok (some doc) =>
    let collections := ListCollections kv
    let kv := collections.foldl (removeFromAllStep now id) kv
    let anns := GetAnnotations kv id
    let kv := anns.foldl deleteAnnStep kv
    let kv := kvDelete kv (generateKey "doc:path" doc.path)
    let kv :=
      if doc.source ≠ "" ∧ doc.sourceID ≠ "" then
        kvDelete kv (generateKey "doc:source" (doc.source ++ ":" ++ doc.sourceID))
      else kv
    let kv := removeFromDocumentIndex id kv
    .ok (kvDelete kv (generateKey "doc" id))

/-- The sessions child index with the caller-side empty fallback of
`ListSessions` (kvstore.go:835-846). -/
def sessionRoster (kv : KV) (documentID : String) : List String :=
  match kvGet kv (generateKey "index" ("doc:sessions:" ++ documentID)) with
  | none => []
  | some v =>
    match asStrList v with
    | some ids => ids
    | none => []

/-- `ListSessions` (kvstore.go:832-875): indexed ids, skipping orphaned and
unreadable blobs, insertion-sorted by start time descending. -/
def ListSessions (kv : KV) (documentID : String) : List ReadingSession :=
  let sessions := (sessionRoster kv documentID).filterMap (fun id =>
    match kvGet kv (generateKey "session" id) with
    | none => none
    | some v => asSess v)
  goInsertionSort (fun a b => !(a.startAt < b.startAt)) sessions

/-- `GetFlashcard` (kvstore.go:936-951). -/
def GetFlashcard (kv : KV) (id : String) : Except GoError (Option Flashcard) :=
  match kvGet kv (generateKey "flashcard" id) with
  | none => .ok none
  | some v =>
    match asCard v with
    | some c => .ok (some c)
    | none => .error (.generic "unmarshal flashcard")

/-- The flashcard roster with the caller-side empty fallback of
`ListFlashcards` (kvstore.go:956-967). -/
def flashcardRoster (kv : KV) : List String :=
  match kvGet kv (generateKey "index" "flashcards") with
  | none => []
  | some v =>
    match asStrList v with
    | some ids => ids
    | none => []

/-- The filter block of `ListFlashcards` (kvstore.go:980-999). -/
def cardMatches (now : Int) (opts : FlashcardListOptions) (c : Flashcard) : Bool :=
  (opts.documentID == "" || c.documentID == opts.documentID) &&
  (opts.tag == "" || c.tags.any (fun t => eqFold t opts.tag)) &&
  (!opts.due || !(c.dueAt > now))

/-- The id loop of `ListFlashcards` (kvstore.go:970-1006). -/
def listCardsLoop (now : Int) (kv : KV) (opts : Option FlashcardListOptions) :
    List String → List Flashcard → List Flashcard
  | [], cards => cards
  | id :: rest, cards =>
    match GetFlashcard kv id with
    | .error _ => listCardsLoop now kv opts rest cards
    | .ok none => listCardsLoop now kv opts rest cards
    | .ok (some c) =>
      if (match opts with | some o => cardMatches now o c | none => true) then
        let cards2 := cards ++ [c]
        if (match opts with | some o => limitHit o.limit cards2.length | none => false) then cards2
        else listCardsLoop now kv opts rest cards2
      else listCardsLoop now kv opts rest cards

/-- `ListFlashcards` (kvstore.go:953-1018): roster loop with filters and
limit, then insertion sort by due date ascending.  `now` is the
`time.Now()` consulted by the due filter. -/
def ListFlashcards (now : Int) (kv : KV) (opts : Option FlashcardListOptions) : List Flashcard :=
  let cards := listCardsLoop now kv opts (flashcardRoster kv) []
  goInsertionSort (fun a b => !(a.dueAt > b.dueAt)) cards

/-- `UpdateFlashcard` (kvstore.go:1020-1039). -/
def UpdateFlashcard (now : Int) (card : Flashcard) (kv : KV) : Except GoError (Flashcard × KV) :=
  match GetFlashcard kv card.id with
  | .error e => .error e
  | .ok none => .error (.generic ("flashcard not found: " ++ card.id))
  | .ok (some existing) =>
    let card := { card with createdAt := existing.createdAt, updatedAt := now }
    .ok (card, kvSet kv (generateKey "flashcard" card.id) (.cardBlob card))

/-- `getFlashcardReviewIndex` (kvstore.go:1144-1156) as consulted by
`addReview`: `none` is the not-found fallback to an empty list, and an
unreadable blob is a hard error there. -/
def reviewIndexRead (kv : KV) (flashcardID : String) : Except GoError (List String) :=
  match kvGet kv (generateKey "index" ("flashcard:reviews:" ++ flashcardID)) with
  | none => .ok []
  | some v =>
    match asStrList v with
    | some ids => .ok ids
    | none => .error (.generic "unmarshal review index")

/-- `addReview` (kvstore.go:1122-1142): store the review blob, then append
its id to the per-card review index.  The error returned when the index
blob is unreadable is discarded by the only caller (`ReviewFlashcard`),
and the blob write performed before that failure persists, so the function
is total here: on an unreadable index only the blob write survives. -/
def addReview (review : FlashcardReview) (kv : KV) : KV :=
  let kv := kvSet kv (generateKey "review" review.id) (.reviewBlob review)
  match reviewIndexRead kv review.flashcardID with
  | .error _ => kv
  | .ok ids =>
    kvSet kv (generateKey "index" ("flashcard:reviews:" ++ review.flashcardID))
      (.strList (ids ++ [review.id]))

/-- `ListFlashcardReviews` (kvstore.go:1158-1201): indexed ids, skipping
orphans and unreadable blobs, insertion-sorted by review time descending. -/
def ListFlashcardReviews (kv : KV) (flashcardID : String) : List FlashcardReview :=
  let ids :=
    match kvGet kv (generateKey "index" ("flashcard:reviews:" ++ flashcardID)) with
    | none => []
    | some v =>
      match asStrList v with
      | some ids => ids
      | none => []
  let reviews := ids.filterMap (fun id =>
    match kvGet kv (generateKey "review" id) with
    | none => none
    | some v =>
      match v with
      | .reviewBlob r => some r
      | _ => none)
  goInsertionSort (fun a b => !(a.reviewedAt < b.reviewedAt)) reviews

/-- `ReviewFlashcard` (kvstore.go:1053-1120): look up the card, default a
zero ease to 2.5, run SM-2, persist the card, then append the audit record
(whose storage failure is ignored). -/
def ReviewFlashcard (now : Int) (id : String) (quality : Int) (kv : KV) :
    Except GoError (Flashcard × KV) :=
  match GetFlashcard kv id with
  | .error e => .error e
  | .ok none => .error (.generic ("flashcard not found: " ++ id))
  | .ok (some card) =>
    let prevInterval := card.interval
    let prevEase := sm2PrevEase card.ease
    let ease := sm2Ease prevEase quality
    let interval := sm2Interval prevInterval ease quality
    let card := { card with interval := interval, ease := ease,
                            dueAt := now + interval, lastReview := now, updatedAt := now }
    match UpdateFlashcard now card kv with
    | .error e => .error e
    | .ok (card, kv) =>
      let review : FlashcardReview :=
        { id := "review:" ++ toString now, flashcardID := id, quality := quality,
          reviewedAt := now, prevInterval := prevInterval, prevEase := prevEase }
      .ok (card, addReview review kv)

/-- `AddTask` (kvstore.go:1264-1266): unconditional stub failure. -/
def AddTask (t : LibTask) (kv : KV) : Except GoError KV :=
  .error (.generic "tasks not yet implemented for KV store: use SQL backend")

/-- `GetTask` (kvstore.go:1268-1270). -/
def GetTask (kv : KV) (id : String) : Except GoError (Option LibTask) :=
  .error (.generic "tasks not yet implemented for KV store: use SQL backend")

/-- `ListTasks` (kvstore.go:1272-1274). -/
def ListTasks (kv : KV) : Except GoError (List LibTask) :=
  .error (.generic "tasks not yet implemented for KV store: use SQL backend")

/-- `UpdateTask` (kvstore.go:1276-1278). -/
def UpdateTask (t : LibTask) (kv : KV) : Except GoError KV :=
  .error (.generic "tasks not yet implemented for KV store: use SQL backend")

/-- `DeleteTask` (kvstore.go:1280-1282). -/
def DeleteTask (id : String) (kv : KV) : Except GoError KV :=
  .error (.generic "tasks not yet implemented for KV store: use SQL backend")

end KVStore

/-! ## Relational engine, from the SQL `Store` (`initSchema` and the
statement bodies).

Tables are lists of rows in insertion order; `QueryRow ... WHERE id = ?`
is the first matching row.  Constraints modelled are the ones `initSchema`
declares: PRIMARY KEY columns, `collections.name UNIQUE`, and the
`ON DELETE CASCADE` foreign keys out of `documents` and `flashcards`. -/

/-- A row of the `collections` table (`id TEXT PRIMARY KEY`,
`name TEXT NOT NULL UNIQUE`). -/
structure CollectionRow where
  id          : String := ""
  name        : String := ""
  description : String := ""
  createdAt   : Int := 0
  updatedAt   : Int := 0
deriving DecidableEq, Repr

/-- A row of the `collection_documents` join table
(`PRIMARY KEY (collection_id, document_id)`). -/
structure CollDocRow where
  collectionID : String := ""
  documentID   : String := ""
  addedAt      : Int := 0
deriving DecidableEq, Repr

/-- The relational store state: one list of rows per table used by the
claims. -/
structure SQLDB where
  documents           : List Document := []
  collections         : List CollectionRow := []
  collectionDocuments : List CollDocRow := []
  annotations         : List Annot := []
  readingSessions     : List ReadingSession := []
  flashcards          : List Flashcard := []
  flashcardReviews    : List FlashcardReview := []
deriving DecidableEq, Repr

namespace Store

/-- `AddDocument` (store.go): `INSERT INTO documents ...`; the only
constraint on the table is the `id` PRIMARY KEY (no UNIQUE on `path` or on
`source, source_id` — `idx_documents_source` is a plain index). -/
def AddDocument (now : Int) (doc : Document) (db : SQLDB) : Except GoError (Document × SQLDB) :=
  let doc := { doc with
    id := if doc.id = "" then "uuid:" ++ toString now else doc.id,
    createdAt := now, updatedAt := now }
  if db.documents.any (fun d => d.id == doc.id) then
    .error (.generic "UNIQUE constraint failed: documents.id")
  else
    .ok (doc, { db with documents := db.documents ++ [doc] })

/-- `CreateCollection` (store.go): `INSERT INTO collections ...` subject to
the `id` PRIMARY KEY and the `name` UNIQUE constraint from `initSchema`. -/
def CreateCollection (now : Int) (name description : String) (db : SQLDB) :
    Except GoError (CollectionRow × SQLDB) :=
  let c : CollectionRow := { id := "uuid:" ++ toString now, name := name,
                             description := description, createdAt := now, updatedAt := now }
  if db.collections.any (fun r => r.id == c.id) then
    .error (.generic "UNIQUE constraint failed: collections.id")
  else if db.collections.any (fun r => r.name == c.name) then
    .error (.generic "UNIQUE constraint failed: collections.name")
  else
    .ok (c, { db with collections := db.collections ++ [c] })

/-- `AddToCollection` (store.go): `INSERT OR IGNORE INTO
collection_documents`, so a row whose `(collection_id, document_id)`
primary key already exists is silently skipped. -/
def AddToCollection (now : Int) (collectionID documentID : String) (db : SQLDB) : SQLDB :=
  if db.collectionDocuments.any
      (fun r => r.collectionID == collectionID && r.documentID == documentID) then db
  else
    { db with collectionDocuments :=
        db.collectionDocuments ++ [{ collectionID := collectionID, documentID := documentID,
                                     addedAt := now }] }

/-- `GetAnnotations` (store.go): `SELECT ... WHERE document_id = ? ORDER BY
page, created_at`. -/
def GetAnnotations (db : SQLDB) (documentID : String) : List Annot :=
  goInsertionSort
    (fun a b => a.page < b.page || (a.page == b.page && a.createdAt ≤ b.createdAt))
    (db.annotations.filter (fun a => a.documentID == documentID))

/-- `DeleteDocument` (store.go): `DELETE FROM documents WHERE id = ?` with
the `ON DELETE CASCADE` foreign keys of `initSchema`: annotations,
collection memberships, reading sessions and flashcards referencing the
document are removed, and flashcard reviews cascade through their deleted
flashcards. -/
def DeleteDocument (id : String) (db : SQLDB) : SQLDB :=
  let deadCards := db.flashcards.filter (fun c => c.documentID == id)
  { db with
    documents := db.documents.filter (fun d => d.id != id),
    annotations := db.annotations.filter (fun a => a.documentID != id),
    collectionDocuments := db.collectionDocuments.filter (fun r => r.documentID != id),
    readingSessions := db.readingSessions.filter (fun s => s.documentID != id),
    flashcards := db.flashcards.filter (fun c => c.documentID != id),
    flashcardReviews := db.flashcardReviews.filter
      (fun r => !(deadCards.any (fun c => c.id == r.flashcardID))) }

/-- `GetFlashcard` (store.go): `QueryRow ... WHERE id = ?`, i.e. the first
matching row, absent rows giving `ok none`. -/
def GetFlashcard (db : SQLDB) (id : String) : Option Flashcard :=
  db.flashcards.find? (fun c => c.id == id)

/-- `UpdateFlashcard` (store.go): `UPDATE flashcards SET ... WHERE id = ?`
(every matching row is rewritten; `created_at` is not in the SET list and
therefore preserved). -/
def UpdateFlashcard (now : Int) (card : Flashcard) (db : SQLDB) : SQLDB :=
  { db with flashcards := db.flashcards.map (fun c =>
      if c.id == card.id then
        { card with id := c.id, createdAt := c.createdAt, updatedAt := now }
      else c) }

/-- `ReviewFlashcard` (store.go:827-911): identical SM-2 arithmetic to the
key-value engine, persisting through `UPDATE flashcards` and `INSERT INTO
flashcard_reviews` (whose failure is printed and ignored, so a conflicting
review id simply leaves the audit table unchanged). -/
def ReviewFlashcard (now : Int) (id : String) (quality : Int) (db : SQLDB) :
    Except GoError (Flashcard × SQLDB) :=
  match GetFlashcard db id with
  | none => .error (.generic ("flashcard not found: " ++ id))
  | some card =>
    let prevInterval := card.interval
    let prevEase := sm2PrevEase card.ease
    let ease := sm2Ease prevEase quality
    let interval := sm2Interval prevInterval ease quality
    let card := { card with interval := interval, ease := ease,
                            dueAt := now + interval, lastReview := now, updatedAt := now }
    let db := UpdateFlashcard now card db
    let review : FlashcardReview :=
      { id := "review:" ++ toString now, flashcardID := id, quality := quality,
        reviewedAt := now, prevInterval := prevInterval, prevEase := prevEase }
    let db :=
      if db.flashcardReviews.any (fun r => r.id == review.id) then db
      else { db with flashcardReviews := db.flashcardReviews ++ [review] }
    .ok (card, db)

end Store

/-- The quality guard of the CLI review command
(`newFlashcardReviewCmd`, internal/cmd/flashcard.go:186-226): a rating
outside 0..5 is rejected with a plain formatted error before the store is
called; otherwise the call is forwarded to `ReviewFlashcard` of the
configured backend (shown here over the key-value engine). -/
def flashcardReviewCmdRun (now : Int) (id : String) (quality : Int) (kv : KV) :
    Except GoError (Flashcard × KV) :=
  if quality < 0 ∨ quality > 5 then
    .error (.generic "quality must be between 0 and 5")
  else
    KVStore.ReviewFlashcard now id quality kv

/-- The per-field card update both `ReviewFlashcard` implementations apply
after the SM-2 arithmetic (kvstore.go:1094-1098, store.go:881-885),
factored out so theorems can name the reviewed card. -/
def sm2Apply (now quality : Int) (card : Flashcard) : Flashcard :=
  let prevEase := sm2PrevEase card.ease
  let ease := sm2Ease prevEase quality
  let interval := sm2Interval card.interval ease quality
  { card with interval := interval, ease := ease, dueAt := now + interval,
              lastReview := now, updatedAt := now }

/-- Observation helper: the card returned by a review call. -/
def cardOf (r : Except GoError (Flashcard × KV)) : Option Flashcard :=
  match r with
  | .ok p => some p.1
  | .error _ => none

/-- Observation helper: the key-value state after a review call
(unchanged state conventions never use the error branch). -/
def stateOf (r : Except GoError (Flashcard × KV)) : KV :=
  match r with
  | .ok p => p.2
  | .error _ => []

/-- Observation helper: the card returned by a relational review call. -/
def sqlCardOf (r : Except GoError (Flashcard × SQLDB)) : Option Flashcard :=
  match r with
  | .ok p => some p.1
  | .error _ => none

/-- Observation helper: the relational state after a review call. -/
def sqlStateOf (r : Except GoError (Flashcard × SQLDB)) : SQLDB :=
  match r with
  | .ok p => p.2
  | .error _ => {}

/-- The spec's `clamp(x, 1.3, 2.5)`, written with `min`/`max` exactly as a
reader of the spec formula would. -/
def specClamp (x : Rat) : Rat :=
  max 1.3 (min 2.5 x)

/-- The spec's ease formula
`ease + 0.1 − (5−quality)×(0.08 + (5−quality)×0.02)`, clamped. -/
def specEase (ease : Rat) (quality : Int) : Rat :=
  specClamp (ease + (0.1 - (5 - (quality : Rat)) * (0.08 + (5 - (quality : Rat)) * 0.02)))

/-- The spec's interval rule, with the floor of the claim ("integer
truncation, never rounding"). -/
def specInterval (prevInterval : Int) (ease : Rat) (quality : Int) : Int :=
  if quality < 3 then 1
  else if prevInterval = 0 then 1
  else if prevInterval = 1 then 6
  else ⌊(prevInterval : Rat) * ease⌋

/-- One card-state step of the SM-2 scenario: `(interval, ease)` before a
review of the given quality to `(interval, ease)` after it, as both
engines compute it. -/
def sm2Step (s : Int × Rat) (quality : Int) : Int × Rat :=
  let ease := sm2Ease (sm2PrevEase s.2) quality
  (sm2Interval s.1 ease quality, ease)

/-! ## Key reasoning infrastructure

`generateKey` produces flat strings, so facts about distinct keys reduce to
facts about string concatenation.  Two keys with concrete namespaces that
differ somewhere inside the common part of the two prefixes are distinct
for every suffix. -/

/-- The two character lists disagree at some position inside their common
length. -/
def differWithin (a b : List Char) : Bool :=
  (a.zip b).any (fun e => e.1 != e.2)

/-- Store invariant: every collection blob is filed under the key generated
from its own id (true of every state the engine itself produces). -/
def collWF (kv : KV) : Bool :=
  kv.all (fun p =>
    match p.2 with
    | .collBlob c => p.1 == generateKey "collection" c.id
    | _ => true)

/-- Store invariant: every annotation blob is filed under the key generated
from its own id (true of every state the engine itself produces). -/
def annWF (kv : KV) : Bool :=
  kv.all (fun p =>
    match p.2 with
    | .annBlob a => p.1 == generateKey "annotation" a.id
    | _ => true)

/-- Concrete store exercising the delete cascade: one document with a path
and a source, one collection containing it, one annotation on it. -/
def c5doc : Document :=
  { id := "d1", path := "p1", source := "s", sourceID := "x1" }

def c5coll : Collection := { id := "c1", name := "n", documentIDs := ["d1"] }

def c5ann : Annot := { id := "a1", documentID := "d1" }

def c5kv : KV :=
  [("arc-library:doc:d1", .docBlob c5doc),
   ("arc-library:doc:path:p1", .idBytes "d1"),
   ("arc-library:doc:source:s:x1", .idBytes "d1"),
   ("arc-library:index:documents", .strList ["d1"]),
   ("arc-library:index:collections", .strList ["c1"]),
   ("arc-library:collection:c1", .collBlob c5coll),
   ("arc-library:index:doc:annotations:d1", .strList ["a1"]),
   ("arc-library:annotation:a1", .annBlob c5ann)]

def c5db : SQLDB :=
  { documents := [c5doc], annotations := [c5ann],
    collectionDocuments := [{ collectionID := "c1", documentID := "d1", addedAt := 1 }] }

theorem append_ne_of_differWithin :
    ∀ (a b : List Char), differWithin a b = true →
      ∀ z w : List Char, a ++ z ≠ b ++ w := by
  intro a
  induction a with
  | nil => intro b h z w; simp [differWithin] at h
  | cons x xs ih =>
    intro b h z w
    cases b with
    | nil => simp [differWithin] at h
    | cons y ys =>
      intro heq
      rw [List.cons_append, List.cons_append, List.cons_eq_cons] at heq
      simp only [differWithin, List.zip_cons_cons, List.any_cons, Bool.or_eq_true,
        bne_iff_ne, ne_eq] at h
      rcases h with h | h
      · exact h heq.1
      · exact ih ys (by simpa [differWithin] using h) z w heq.2

/-- Distinctness of appended strings from a disagreement inside the two
concrete prefixes. -/
theorem str_append_ne {p q : String} (h : differWithin p.data q.data = true)
    (x y : String) : p ++ x ≠ q ++ y := by
  intro heq
  have hd : p.data ++ x.data = q.data ++ y.data := by
    have := congrArg String.data heq
    simpa [String.data_append] using this
  exact append_ne_of_differWithin _ _ h _ _ hd

/-- A concrete string never equals a differing concrete prefix followed by
anything. -/
theorem str_ne_append {p q : String} (h : differWithin p.data q.data = true)
    (y : String) : p ≠ q ++ y := by
  intro heq
  have h2 : p ++ "" = q ++ y := by
    have : p ++ "" = p := by simp
    rw [this, heq]
  exact str_append_ne h "" y h2

/-- String concatenation cancels on the left. -/
theorem str_append_inj {p x y : String} (h : p ++ x = p ++ y) : x = y := by
  have hd : p.data ++ x.data = p.data ++ y.data := by
    have := congrArg String.data h
    simpa [String.data_append] using this
  have h2 : x.data = y.data := List.append_cancel_left hd
  cases x
  cases y
  exact congrArg String.mk (by simpa using h2)

/-- `kvGet` after `kvSet` of the same key. -/
theorem kvGet_set_self (kv : KV) (k : String) (v : KVVal) :
    kvGet (kvSet kv k v) k = some v := by
  simp [kvGet, kvSet, List.find?]

/-- `List.find?` is unaffected by filtering out entries with a different
key. -/
theorem find?_filter_other (kv : List (String × KVVal)) (k k2 : String) (h : k2 ≠ k) :
    ((kv.filter (fun e => e.1 != k)).find? (fun e => e.1 == k2)) =
      kv.find? (fun e => e.1 == k2) := by
  induction kv with
  | nil => rfl
  | cons e rest ih =>
    by_cases hk : e.1 = k
    · have h2 : (e.1 == k2) = false := by
        rw [hk]
        exact beq_eq_false_iff_ne.mpr (fun hh => h hh.symm)
      have h3 : (e.1 != k) = false := by simp [hk]
      simp [List.filter_cons, h3, List.find?_cons, h2, ih]
    · have h3 : (e.1 != k) = true := by simp [hk]
      by_cases h4 : e.1 = k2
      · have h5 : (e.1 == k2) = true := by simp [h4]
        simp [List.filter_cons, h3, List.find?_cons, h5]
      · have h5 : (e.1 == k2) = false := by simp [h4]
        simp [List.filter_cons, h3, List.find?_cons, h5, ih]

/-- `kvGet` after `kvSet` of a different key. -/
theorem kvGet_set_other (kv : KV) (k k2 : String) (v : KVVal) (h : k2 ≠ k) :
    kvGet (kvSet kv k v) k2 = kvGet kv k2 := by
  have hb : (k == k2) = false := beq_eq_false_iff_ne.mpr (fun hh => h hh.symm)
  simp [kvGet, kvSet, List.find?_cons, hb, find?_filter_other kv k k2 h]

/-- `kvGet` after `kvDelete` of the same key. -/
theorem kvGet_delete_self (kv : KV) (k : String) :
    kvGet (kvDelete kv k) k = none := by
  induction kv with
  | nil => rfl
  | cons e rest ih =>
    by_cases hk : e.1 = k
    · have h3 : (e.1 != k) = false := by simp [hk]
      simpa [kvDelete, List.filter_cons, h3] using ih
    · have h3 : (e.1 != k) = true := by simp [hk]
      have h5 : (e.1 == k) = false := by simp [hk]
      simpa [kvGet, kvDelete, List.filter_cons, h3, List.find?_cons, h5] using ih

/-- `kvGet` after `kvDelete` of a different key. -/
theorem kvGet_delete_other (kv : KV) (k k2 : String) (h : k2 ≠ k) :
    kvGet (kvDelete kv k) k2 = kvGet kv k2 := by
  simp [kvGet, kvDelete, find?_filter_other kv k k2 h]

/-! ## Shared unfolding lemmas -/

/-- A successful `KVStore.ReviewFlashcard` call in one equation: the card
gets the SM-2 field updates, the blob is rewritten, and the audit record is
appended. -/
theorem reviewFlashcard_ok (now q : Int) (id : String) (kv : KV) (card : Flashcard)
    (h : KVStore.GetFlashcard kv id = .ok (some card)) (hid : card.id = id) :
    KVStore.ReviewFlashcard now id q kv =
      .ok (sm2Apply now q card,
        KVStore.addReview
          { id := "review:" ++ toString now, flashcardID := id, quality := q,
            reviewedAt := now, prevInterval := card.interval, prevEase := sm2PrevEase card.ease }
          (kvSet kv (generateKey "flashcard" id) (.cardBlob (sm2Apply now q card)))) := by
  obtain ⟨cid, cdoc, cty, cf, cb, ccl, ctags, cdue, cint, cease, clr, cca, cua⟩ := card
  subst hid
  simp [KVStore.ReviewFlashcard, KVStore.UpdateFlashcard, h, sm2Apply]

/-! ## Claims -/

/-- C8 counterexample: `AddTask` on the key-value engine does not return a
distinct `UnsupportedOperation` error value — it returns an ordinary
`fmt.Errorf` error (the only error kind the package ever constructs), so
callers cannot distinguish it from a generic failure by anything but its
message text. -/
theorem C8_counterexample :
    KVStore.AddTask {} [] =
      Except.error (GoError.generic "tasks not yet implemented for KV store: use SQL backend") :=
  rfl

/-- C8 amended: every Task operation on the key-value engine (AddTask,
GetTask, ListTasks, UpdateTask, DeleteTask) fails with the same generic
formatted error, whose message names the missing Task capability and
recommends the SQL backend; no dedicated error type exists. -/
theorem C8_amended_generic_task_errors (t : LibTask) (id : String) (kv : KV) :
    KVStore.AddTask t kv =
      .error (.generic "tasks not yet implemented for KV store: use SQL backend") ∧
    KVStore.GetTask kv id =
      .error (.generic "tasks not yet implemented for KV store: use SQL backend") ∧
    KVStore.ListTasks kv =
      .error (.generic "tasks not yet implemented for KV store: use SQL backend") ∧
    KVStore.UpdateTask t kv =
      .error (.generic "tasks not yet implemented for KV store: use SQL backend") ∧
    KVStore.DeleteTask id kv =
      .error (.generic "tasks not yet implemented for KV store: use SQL backend") :=
  ⟨rfl, rfl, rfl, rfl, rfl⟩

/-- C7: on the key-value engine, whenever an index blob holds bytes that do
not parse as a JSON string list, every read that consults it —
ListDocuments, ListCollections, GetAnnotations, ListSessions,
ListFlashcards — treats the index as empty and returns successfully. -/
theorem C7_corrupt_index_reads (kv : KV) (v : KVVal) (docID : String) (now : Int)
    (opts : Option ListOptions) (fopts : Option FlashcardListOptions)
    (hv : asStrList v = none) :
    (kvGet kv (generateKey "index" "documents") = some v →
      KVStore.ListDocuments kv opts = []) ∧
    (kvGet kv (generateKey "index" "collections") = some v →
      KVStore.ListCollections kv = []) ∧
    (kvGet kv (generateKey "index" ("doc:annotations:" ++ docID)) = some v →
      KVStore.GetAnnotations kv docID = []) ∧
    (kvGet kv (generateKey "index" ("doc:sessions:" ++ docID)) = some v →
      KVStore.ListSessions kv docID = []) ∧
    (kvGet kv (generateKey "index" "flashcards") = some v →
      KVStore.ListFlashcards now kv fopts = []) := by
  refine ⟨?_, ?_, ?_, ?_, ?_⟩ <;> intro h <;>
    simp [KVStore.ListDocuments, KVStore.documentRoster, KVStore.listDocsLoop,
      KVStore.ListCollections, KVStore.collectionRoster,
      KVStore.GetAnnotations, KVStore.annRoster,
      KVStore.ListSessions, KVStore.sessionRoster,
      KVStore.ListFlashcards, KVStore.flashcardRoster, KVStore.listCardsLoop,
      goInsertionSort, h, hv]

/-- C7 witness: a concrete store whose five index blobs are all corrupt;
each read returns the empty result. -/
theorem C7_corrupt_index_reads_witness :
    asStrList KVVal.corrupt = none ∧
    KVStore.ListDocuments
      [(generateKey "index" "documents", KVVal.corrupt),
       (generateKey "index" "collections", KVVal.corrupt),
       (generateKey "index" "doc:annotations:d", KVVal.corrupt),
       (generateKey "index" "doc:sessions:d", KVVal.corrupt),
       (generateKey "index" "flashcards", KVVal.corrupt)] none = [] ∧
    KVStore.ListCollections
      [(generateKey "index" "documents", KVVal.corrupt),
       (generateKey "index" "collections", KVVal.corrupt),
       (generateKey "index" "doc:annotations:d", KVVal.corrupt),
       (generateKey "index" "doc:sessions:d", KVVal.corrupt),
       (generateKey "index" "flashcards", KVVal.corrupt)] = [] ∧
    KVStore.GetAnnotations
      [(generateKey "index" "documents", KVVal.corrupt),
       (generateKey "index" "collections", KVVal.corrupt),
       (generateKey "index" "doc:annotations:d", KVVal.corrupt),
       (generateKey "index" "doc:sessions:d", KVVal.corrupt),
       (generateKey "index" "flashcards", KVVal.corrupt)] "d" = [] ∧
    KVStore.ListSessions
      [(generateKey "index" "documents", KVVal.corrupt),
       (generateKey "index" "collections", KVVal.corrupt),
       (generateKey "index" "doc:annotations:d", KVVal.corrupt),
       (generateKey "index" "doc:sessions:d", KVVal.corrupt),
       (generateKey "index" "flashcards", KVVal.corrupt)] "d" = [] ∧
    KVStore.ListFlashcards 0
      [(generateKey "index" "documents", KVVal.corrupt),
       (generateKey "index" "collections", KVVal.corrupt),
       (generateKey "index" "doc:annotations:d", KVVal.corrupt),
       (generateKey "index" "doc:sessions:d", KVVal.corrupt),
       (generateKey "index" "flashcards", KVVal.corrupt)] none = [] := by
  have h := C7_corrupt_index_reads
    [(generateKey "index" "documents", KVVal.corrupt),
     (generateKey "index" "collections", KVVal.corrupt),
     (generateKey "index" "doc:annotations:d", KVVal.corrupt),
     (generateKey "index" "doc:sessions:d", KVVal.corrupt),
     (generateKey "index" "flashcards", KVVal.corrupt)] KVVal.corrupt "d" 0 none none rfl
  exact ⟨rfl, h.1 (by decide), h.2.1 (by decide), h.2.2.1 (by decide),
    h.2.2.2.1 (by decide), h.2.2.2.2 (by decide)⟩

/-- C3: the key-value engine's ListDocuments returns documents in roster
insertion order, not sorted by updatedAt descending — evaluated at the
failing input: the roster lists d1 before d2 although d2 has the strictly
larger updatedAt, and the result keeps that roster order. -/
theorem C3_kv_roster_order :
    KVStore.ListDocuments
      [(generateKey "index" "documents", KVVal.strList ["d1", "d2"]),
       (generateKey "doc" "d1", KVVal.docBlob { id := "d1", updatedAt := 1 }),
       (generateKey "doc" "d2", KVVal.docBlob { id := "d2", updatedAt := 2 })] none =
      [{ id := "d1", updatedAt := 1 }, { id := "d2", updatedAt := 2 }] ∧
    ({ id := "d1", updatedAt := 1 : Document }).updatedAt <
      ({ id := "d2", updatedAt := 2 : Document }).updatedAt := by
  decide

/-- C2 counterexample: with the out-of-range quality 6, the store-level
ReviewFlashcard on the key-value engine does not reject the rating — it
returns success, runs the SM-2 computation, and persists a card whose
interval, dueAt, lastReview and updatedAt all changed. -/
theorem C2_counterexample :
    cardOf (KVStore.ReviewFlashcard 100 "c1" 6
        [(generateKey "flashcard" "c1", KVVal.cardBlob { id := "c1", ease := 2.5 })]) =
      some { id := "c1", ease := 2.5, interval := 1, dueAt := 101,
             lastReview := 100, updatedAt := 100 } ∧
    KVStore.GetFlashcard
        (stateOf (KVStore.ReviewFlashcard 100 "c1" 6
          [(generateKey "flashcard" "c1", KVVal.cardBlob { id := "c1", ease := 2.5 })])) "c1" =
      .ok (some { id := "c1", ease := 2.5, interval := 1, dueAt := 101,
                  lastReview := 100, updatedAt := 100 }) := by
  exact ⟨by with_unfolding_all rfl, by with_unfolding_all rfl⟩

/-- C2 amended: only the CLI review command validates the quality rating:
for a rating outside 0..5 it returns a plain formatted error (no
ValidationError type exists) before calling the store, so the card is
untouched; the store-level ReviewFlashcard on both engines performs no
range check and applies the SM-2 update to any rating it receives. -/
theorem C2_amended_cli_validation (now q : Int) (id : String) (kv : KV) (db : SQLDB)
    (card : Flashcard)
    (hq : q < 0 ∨ 5 < q)
    (hid : card.id = id)
    (hkv : KVStore.GetFlashcard kv id = .ok (some card))
    (hdb : Store.GetFlashcard db id = some card) :
    flashcardReviewCmdRun now id q kv =
      .error (.generic "quality must be between 0 and 5") ∧
    cardOf (KVStore.ReviewFlashcard now id q kv) = some (sm2Apply now q card) ∧
    sqlCardOf (Store.ReviewFlashcard now id q db) = some (sm2Apply now q card) := by
  refine ⟨?_, ?_, ?_⟩
  · unfold flashcardReviewCmdRun
    exact if_pos hq
  · rw [reviewFlashcard_ok now q id kv card hkv hid]
    rfl
  · simp [Store.ReviewFlashcard, hdb, sqlCardOf, sm2Apply]

/-- C2 amended witness: concrete instantiation at quality 6. -/
theorem C2_amended_cli_validation_witness :
    flashcardReviewCmdRun 100 "c1" 6
        [(generateKey "flashcard" "c1", KVVal.cardBlob { id := "c1", ease := 2.5 })] =
      .error (.generic "quality must be between 0 and 5") ∧
    cardOf (KVStore.ReviewFlashcard 100 "c1" 6
        [(generateKey "flashcard" "c1", KVVal.cardBlob { id := "c1", ease := 2.5 })]) =
      some (sm2Apply 100 6 { id := "c1", ease := 2.5 }) ∧
    sqlCardOf (Store.ReviewFlashcard 100 "c1" 6
        { flashcards := [{ id := "c1", ease := 2.5 }] }) =
      some (sm2Apply 100 6 { id := "c1", ease := 2.5 }) := by
  exact C2_amended_cli_validation 100 6 "c1"
    [(generateKey "flashcard" "c1", KVVal.cardBlob { id := "c1", ease := 2.5 })]
    { flashcards := [{ id := "c1", ease := 2.5 }] }
    { id := "c1", ease := 2.5 }
    (by norm_num) rfl (by with_unfolding_all rfl) (by with_unfolding_all rfl)

/-- The sequential clamps of the code equal the spec's `clamp(x, 1.3, 2.5)`. -/
theorem sm2ClampEase_eq_specClamp (x : Rat) : sm2ClampEase x = specClamp x := by
  simp only [sm2ClampEase, specClamp]
  split_ifs with h1 h2 h3
  · norm_num at h2
  · rw [min_eq_right (by linarith), max_eq_left (by linarith)]
  · rw [min_eq_left (by linarith), max_eq_right (by norm_num)]
  · rw [min_eq_right (by linarith), max_eq_right (by linarith)]

/-- The code's ease update equals the spec's formula. -/
theorem sm2Ease_eq_specEase (e : Rat) (q : Int) : sm2Ease e q = specEase e q := by
  unfold sm2Ease specEase
  rw [sm2ClampEase_eq_specClamp]
  congr 1
  push_cast
  ring

/-- Go's `int` truncation is the floor on nonnegative values. -/
theorem goTrunc_eq_floor (x : Rat) (h : 0 ≤ x) : goTrunc x = ⌊x⌋ := by
  unfold goTrunc
  exact if_pos h

/-- The clamped ease is at least 1.3. -/
theorem le_sm2ClampEase (x : Rat) : (1.3:Rat) ≤ sm2ClampEase x := by
  rcases lt_or_le x 1.3 with h | h
  · simp only [sm2ClampEase, if_pos h]
    split_ifs <;> norm_num
  · simp only [sm2ClampEase, if_neg (not_lt.mpr h)]
    split_ifs with h2
    · norm_num
    · exact h

/-- The spec clamp is at least 1.3. -/
theorem le_specClamp (x : Rat) : (1.3:Rat) ≤ specClamp x :=
  le_max_left _ _

/-- The spec ease is at least 1.3. -/
theorem le_specEase (e : Rat) (q : Int) : (1.3:Rat) ≤ specEase e q :=
  le_max_left _ _

/-- The code's interval update equals the spec's interval rule whenever the
previous interval and the ease are nonnegative. -/
theorem sm2Interval_eq_specInterval (i : Int) (e : Rat) (q : Int)
    (hi : 0 ≤ i) (he : 0 ≤ e) :
    sm2Interval i e q = specInterval i e q := by
  unfold sm2Interval specInterval
  split_ifs
  any_goals rfl
  exact goTrunc_eq_floor _ (mul_nonneg (by exact_mod_cast hi) he)

/-- Ease stays at or above 1.3 under any number of quality-0 reviews of the
fresh scenario card. -/
theorem sm2_repeated_zero_ease_lb (n : Nat) :
    (1.3:Rat) ≤ ((fun s => sm2Step s 0)^[n] (0, (2.5:Rat))).2 := by
  induction n with
  | zero => norm_num
  | succ n ih =>
    rw [Function.iterate_succ_apply']
    simpa [sm2Step, sm2Ease] using le_sm2ClampEase _

/-- C1: for any stored flashcard (ease in the data-model domain [1.3, 2.5],
interval ≥ 0) and any quality in 0..5, ReviewFlashcard on both engines
returns the card with ease = clamp(ease + 0.1 − (5−q)(0.08 + (5−q)·0.02),
1.3, 2.5), interval per the SM-2 rule with floor truncation, and dueAt =
review time + new interval in days; and the SM-2 scenario holds: a fresh
card (interval 0, ease 2.5) gets interval 1 at quality 4, then 6 at
quality 5, resets to 1 at quality 2, and ease never drops below 1.3 under
repeated quality-0 reviews. -/
theorem C1_reviewFlashcard_sm2
    (now q : Int) (id : String) (kv : KV) (db : SQLDB) (card : Flashcard)
    (hq0 : 0 ≤ q) (hq5 : q ≤ 5)
    (hlo : (1.3:Rat) ≤ card.ease) (hhi : card.ease ≤ 2.5) (hint : 0 ≤ card.interval)
    (hid : card.id = id)
    (hkv : KVStore.GetFlashcard kv id = .ok (some card))
    (hdb : Store.GetFlashcard db id = some card) :
    cardOf (KVStore.ReviewFlashcard now id q kv) =
      some { card with
        ease := specEase card.ease q,
        interval := specInterval card.interval (specEase card.ease q) q,
        dueAt := now + specInterval card.interval (specEase card.ease q) q,
        lastReview := now, updatedAt := now } ∧
    sqlCardOf (Store.ReviewFlashcard now id q db) =
      some { card with
        ease := specEase card.ease q,
        interval := specInterval card.interval (specEase card.ease q) q,
        dueAt := now + specInterval card.interval (specEase card.ease q) q,
        lastReview := now, updatedAt := now } ∧
    (sm2Step (0, 2.5) 4).1 = 1 ∧
    (sm2Step (sm2Step (0, 2.5) 4) 5).1 = 6 ∧
    (sm2Step (sm2Step (sm2Step (0, 2.5) 4) 5) 2).1 = 1 ∧
    (∀ n : Nat, (1.3:Rat) ≤ ((fun s => sm2Step s 0)^[n] (0, (2.5:Rat))).2) := by
  have hpe : sm2PrevEase card.ease = card.ease := by
    unfold sm2PrevEase
    rw [if_neg]
    intro h0
    rw [h0] at hlo
    norm_num at hlo
  have hcard : sm2Apply now q card =
      { card with
        ease := specEase card.ease q,
        interval := specInterval card.interval (specEase card.ease q) q,
        dueAt := now + specInterval card.interval (specEase card.ease q) q,
        lastReview := now, updatedAt := now } := by
    simp only [sm2Apply, hpe, sm2Ease_eq_specEase]
    rw [sm2Interval_eq_specInterval _ _ _ hint
      (le_trans (by norm_num) (le_specEase card.ease q))]
  refine ⟨?_, ?_, by with_unfolding_all rfl, by with_unfolding_all rfl,
    by with_unfolding_all rfl, sm2_repeated_zero_ease_lb⟩
  · rw [reviewFlashcard_ok now q id kv card hkv hid]
    simp only [cardOf, hcard]
  · simp only [Store.ReviewFlashcard, hdb, sqlCardOf]
    rw [show ({ card with
        interval := sm2Interval card.interval (sm2Ease (sm2PrevEase card.ease) q) q,
        ease := sm2Ease (sm2PrevEase card.ease) q,
        dueAt := now + sm2Interval card.interval (sm2Ease (sm2PrevEase card.ease) q) q,
        lastReview := now, updatedAt := now } : Flashcard) = sm2Apply now q card
      from by simp only [sm2Apply]]
    rw [hcard]

/-- C1 witness: a fresh card with ease 2.5 and interval 0 reviewed at
quality 4 on both engines yields interval 1, ease 2.5, due one day after
the review. -/
theorem C1_reviewFlashcard_sm2_witness :
    cardOf (KVStore.ReviewFlashcard 100 "c1" 4
        [(generateKey "flashcard" "c1", KVVal.cardBlob { id := "c1", ease := 2.5 })]) =
      some { id := "c1", ease := 2.5, interval := 1, dueAt := 101,
             lastReview := 100, updatedAt := 100 } ∧
    sqlCardOf (Store.ReviewFlashcard 100 "c1" 4
        { flashcards := [{ id := "c1", ease := 2.5 }] }) =
      some { id := "c1", ease := 2.5, interval := 1, dueAt := 101,
             lastReview := 100, updatedAt := 100 } := by
  have h := C1_reviewFlashcard_sm2 100 4 "c1"
    [(generateKey "flashcard" "c1", KVVal.cardBlob { id := "c1", ease := 2.5 })]
    { flashcards := [{ id := "c1", ease := 2.5 }] }
    { id := "c1", ease := 2.5 }
    (by norm_num) (by norm_num) (by norm_num) (by norm_num) (by norm_num)
    rfl (by with_unfolding_all rfl) (by with_unfolding_all rfl)
  exact ⟨h.1.trans (by with_unfolding_all rfl), h.2.1.trans (by with_unfolding_all rfl)⟩

/-- The review blob is stored by `addReview` under its key, whatever the
state of the review index. -/
theorem kvGet_addReview_self (review : FlashcardReview) (kv : KV) :
    kvGet (KVStore.addReview review kv) (generateKey "review" review.id) =
      some (.reviewBlob review) := by
  simp only [KVStore.addReview]
  split
  · exact kvGet_set_self _ _ _
  · rw [kvGet_set_other]
    · exact kvGet_set_self _ _ _
    · exact str_append_ne (p := "arc-library:review:") (q := "arc-library:index:")
        (by decide) review.id ("flashcard:reviews:" ++ review.flashcardID)

/-- C10: on both engines, a stored flashcard whose Ease is 0 is reviewed
with 2.5 substituted as the pre-review ease, and the appended
FlashcardReview audit record carries PrevEase 2.5 (not 0). -/
theorem C10_ease_default (now q : Int) (id : String) (kv : KV) (db : SQLDB) (card : Flashcard)
    (h0 : card.ease = 0) (hid : card.id = id)
    (hkv : KVStore.GetFlashcard kv id = .ok (some card))
    (hdb : Store.GetFlashcard db id = some card)
    (hfree : ∀ r ∈ db.flashcardReviews, r.id ≠ "review:" ++ toString now) :
    cardOf (KVStore.ReviewFlashcard now id q kv) =
      some { card with ease := sm2Ease 2.5 q,
                       interval := sm2Interval card.interval (sm2Ease 2.5 q) q,
                       dueAt := now + sm2Interval card.interval (sm2Ease 2.5 q) q,
                       lastReview := now, updatedAt := now } ∧
    kvGet (stateOf (KVStore.ReviewFlashcard now id q kv))
        (generateKey "review" ("review:" ++ toString now)) =
      some (.reviewBlob { id := "review:" ++ toString now, flashcardID := id, quality := q,
                          reviewedAt := now, prevInterval := card.interval, prevEase := 2.5 }) ∧
    ({ id := "review:" ++ toString now, flashcardID := id, quality := q,
       reviewedAt := now, prevInterval := card.interval,
       prevEase := 2.5 : FlashcardReview }) ∈
      (sqlStateOf (Store.ReviewFlashcard now id q db)).flashcardReviews ∧
    sqlCardOf (Store.ReviewFlashcard now id q db) =
      some { card with ease := sm2Ease 2.5 q,
                       interval := sm2Interval card.interval (sm2Ease 2.5 q) q,
                       dueAt := now + sm2Interval card.interval (sm2Ease 2.5 q) q,
                       lastReview := now, updatedAt := now } := by
  have hpe : sm2PrevEase card.ease = 2.5 := by simp [sm2PrevEase, h0]
  have hany : db.flashcardReviews.any
      (fun r => r.id == "review:" ++ toString now) = false := by
    rw [List.any_eq_false]
    intro r hr
    simpa using hfree r hr
  refine ⟨?_, ?_, ?_, ?_⟩
  · rw [reviewFlashcard_ok now q id kv card hkv hid]
    simp only [cardOf, sm2Apply, hpe]
  · rw [reviewFlashcard_ok now q id kv card hkv hid]
    simp only [stateOf]
    rw [← hpe]
    exact kvGet_addReview_self _ _
  · rw [← hpe]
    simp only [Store.ReviewFlashcard, hdb, sqlStateOf, Store.UpdateFlashcard, hany,
      Bool.false_eq_true, if_false]
    exact List.mem_append_right _ (List.mem_singleton.mpr rfl)
  · simp only [Store.ReviewFlashcard, hdb, sqlCardOf, hpe]

/-- C10 witness: a card added with the zero ease reviewed at quality 4:
both engines use and record the 2.5 default. -/
theorem C10_ease_default_witness :
    cardOf (KVStore.ReviewFlashcard 100 "c1" 4
        [(generateKey "flashcard" "c1", KVVal.cardBlob { id := "c1" })]) =
      some { id := "c1", ease := sm2Ease 2.5 4, interval := sm2Interval 0 (sm2Ease 2.5 4) 4,
             dueAt := 100 + sm2Interval 0 (sm2Ease 2.5 4) 4,
             lastReview := 100, updatedAt := 100 } ∧
    kvGet (stateOf (KVStore.ReviewFlashcard 100 "c1" 4
        [(generateKey "flashcard" "c1", KVVal.cardBlob { id := "c1" })]))
        (generateKey "review" ("review:" ++ toString (100:Int))) =
      some (.reviewBlob { id := "review:" ++ toString (100:Int), flashcardID := "c1",
                          quality := 4, reviewedAt := 100, prevInterval := 0,
                          prevEase := 2.5 }) ∧
    ({ id := "review:" ++ toString (100:Int), flashcardID := "c1", quality := 4,
       reviewedAt := 100, prevInterval := 0, prevEase := 2.5 : FlashcardReview }) ∈
      (sqlStateOf (Store.ReviewFlashcard 100 "c1" 4
        { flashcards := [{ id := "c1" }] })).flashcardReviews ∧
    sqlCardOf (Store.ReviewFlashcard 100 "c1" 4 { flashcards := [{ id := "c1" }] }) =
      some { id := "c1", ease := sm2Ease 2.5 4, interval := sm2Interval 0 (sm2Ease 2.5 4) 4,
             dueAt := 100 + sm2Interval 0 (sm2Ease 2.5 4) 4,
             lastReview := 100, updatedAt := 100 } := by
  exact C10_ease_default 100 4 "c1"
    [(generateKey "flashcard" "c1", KVVal.cardBlob { id := "c1" })]
    { flashcards := [{ id := "c1" }] } { id := "c1" } rfl rfl
    (by with_unfolding_all rfl) (by with_unfolding_all rfl)
    (by intro r hr; cases hr)

/-- C9: AddToCollection is idempotent on both engines: starting from a
collection whose membership list holds the document at most once, two
(hence any number of) AddToCollection calls leave exactly one occurrence,
and a duplicate-free list stays duplicate-free. -/
theorem C9_addToCollection_idempotent
    (now1 now2 : Int) (cid d : String) (kv : KV) (db : SQLDB) (c : Collection)
    (hc : KVStore.getCollectionByID kv cid = .ok (some c)) (hcid : c.id = cid)
    (hcount : c.documentIDs.count d ≤ 1)
    (hsql : db.collectionDocuments.countP
      (fun r => r.collectionID == cid && r.documentID == d) ≤ 1) :
    (∀ kv1, KVStore.AddToCollection now1 cid d kv = .ok kv1 →
     ∀ kv2, KVStore.AddToCollection now2 cid d kv1 = .ok kv2 →
     ∀ c2, KVStore.getCollectionByID kv2 cid = .ok (some c2) →
       c2.documentIDs.count d = 1 ∧ (c.documentIDs.Nodup → c2.documentIDs.Nodup)) ∧
    (Store.AddToCollection now2 cid d
        (Store.AddToCollection now1 cid d db)).collectionDocuments.countP
      (fun r => r.collectionID == cid && r.documentID == d) = 1 := by
  constructor
  · intro kv1 h1 kv2 h2 c2 hc2
    by_cases hd : d ∈ c.documentIDs
    · simp only [KVStore.AddToCollection, hc] at h1
      rw [if_pos hd] at h1
      injection h1 with h1
      subst h1
      simp only [KVStore.AddToCollection, hc] at h2
      rw [if_pos hd] at h2
      injection h2 with h2
      subst h2
      rw [hc2] at hc
      injection hc with hc
      injection hc with hc
      subst hc
      refine ⟨le_antisymm hcount (List.count_pos_iff.mpr hd), fun h => h⟩
    · simp only [KVStore.AddToCollection, hc] at h1
      rw [if_neg hd] at h1
      injection h1 with h1
      subst h1
      have hget1 : KVStore.getCollectionByID
          (kvSet kv (generateKey "collection" c.id)
            (.collBlob { c with documentIDs := c.documentIDs ++ [d], updatedAt := now1 })) cid =
          .ok (some { c with documentIDs := c.documentIDs ++ [d], updatedAt := now1 }) := by
        rw [KVStore.getCollectionByID, hcid, kvGet_set_self]
        rfl
      simp only [KVStore.AddToCollection, hget1] at h2
      rw [if_pos (List.mem_append_right _ (List.mem_singleton.mpr rfl))] at h2
      injection h2 with h2
      subst h2
      rw [hget1] at hc2
      injection hc2 with hc2
      injection hc2 with hc2
      subst hc2
      have hz : c.documentIDs.count d = 0 := List.count_eq_zero.mpr hd
      constructor
      · simp [List.count_append, hz]
      · intro h
        simp [List.nodup_append, h, hd]
  · rcases hany : db.collectionDocuments.any
        (fun r => r.collectionID == cid && r.documentID == d) with _ | _
    · have hz : db.collectionDocuments.countP
          (fun r => r.collectionID == cid && r.documentID == d) = 0 := by
        rw [List.countP_eq_zero]
        intro a ha
        have := List.any_eq_false.mp hany a ha
        simpa using this
      have hstep1 : Store.AddToCollection now1 cid d db =
          { db with collectionDocuments := db.collectionDocuments ++
              [{ collectionID := cid, documentID := d, addedAt := now1 }] } := by
        rw [Store.AddToCollection, if_neg (by rw [hany]; exact Bool.false_ne_true)]
      rw [hstep1]
      have hmem2 : (db.collectionDocuments ++
          [({ collectionID := cid, documentID := d, addedAt := now1 } : CollDocRow)]).any
            (fun r => r.collectionID == cid && r.documentID == d) = true := by
        rw [List.any_eq_true]
        refine ⟨{ collectionID := cid, documentID := d, addedAt := now1 }, ?_, by simp⟩
        exact List.mem_append_right _ (List.mem_singleton.mpr rfl)
      have hstep2 : Store.AddToCollection now2 cid d
          { db with collectionDocuments := db.collectionDocuments ++
              [{ collectionID := cid, documentID := d, addedAt := now1 }] } =
          { db with collectionDocuments := db.collectionDocuments ++
              [{ collectionID := cid, documentID := d, addedAt := now1 }] } := by
        rw [Store.AddToCollection, if_pos hmem2]
      rw [hstep2]
      simp [List.countP_append, hz, List.countP_cons]
    · have hpos : 0 < db.collectionDocuments.countP
          (fun r => r.collectionID == cid && r.documentID == d) := by
        rw [List.countP_pos_iff]
        rcases List.any_eq_true.mp hany with ⟨a, ha, hpa⟩
        exact ⟨a, ha, hpa⟩
      have hstep1 : Store.AddToCollection now1 cid d db = db := by
        rw [Store.AddToCollection, if_pos hany]
      have hstep2 : Store.AddToCollection now2 cid d db = db := by
        rw [Store.AddToCollection, if_pos hany]
      rw [hstep1, hstep2]
      exact le_antisymm hsql hpos

/-- C9 witness: adding the same document twice to a fresh collection on
both engines leaves exactly one occurrence. -/
theorem C9_addToCollection_idempotent_witness :
    ({ id := "col1", documentIDs := ["d1"], updatedAt := 1 : Collection }).documentIDs.count "d1" = 1 ∧
    ({ id := "col1", documentIDs := ["d1"], updatedAt := 1 : Collection }).documentIDs.Nodup ∧
    (Store.AddToCollection 2 "col1" "d1"
        (Store.AddToCollection 1 "col1" "d1" {})).collectionDocuments.countP
      (fun r => r.collectionID == "col1" && r.documentID == "d1") = 1 := by
  have h := C9_addToCollection_idempotent 1 2 "col1" "d1"
      [(generateKey "collection" "col1", KVVal.collBlob { id := "col1" })] {} { id := "col1" }
      (by with_unfolding_all rfl) rfl (by decide) (by decide)
  have h1 := h.1
      [(generateKey "collection" "col1",
        KVVal.collBlob { id := "col1", documentIDs := ["d1"], updatedAt := 1 })]
      (by with_unfolding_all rfl)
      [(generateKey "collection" "col1",
        KVVal.collBlob { id := "col1", documentIDs := ["d1"], updatedAt := 1 })]
      (by with_unfolding_all rfl)
      { id := "col1", documentIDs := ["d1"], updatedAt := 1 } (by with_unfolding_all rfl)
  exact ⟨h1.1, h1.2 (by decide), h.2⟩

/-- Suffixes under the same namespace are cancellable. -/
theorem generateKey_inj (pre : String) {x y : String}
    (h : generateKey pre x = generateKey pre y) : x = y :=
  str_append_inj h

/-- A document-blob key differs from every path-index key provided the
document id does not itself start with the bytes `path:`. -/
theorem gk_doc_ne_path (docid p : String) (h : ∀ s, docid ≠ "path:" ++ s) :
    generateKey "doc" docid ≠ generateKey "doc:path" p := by
  intro he
  have he2 : ("arc-library:doc:" : String) ++ docid =
      "arc-library:doc:" ++ ("path:" ++ p) := he
  exact h p (str_append_inj he2)

/-- A document-blob key differs from every source-index key provided the
document id does not itself start with the bytes `source:`. -/
theorem gk_doc_ne_source (docid sk : String) (h : ∀ s, docid ≠ "source:" ++ s) :
    generateKey "doc" docid ≠ generateKey "doc:source" sk := by
  intro he
  have he2 : ("arc-library:doc:" : String) ++ docid =
      "arc-library:doc:" ++ ("source:" ++ sk) := he
  exact h sk (str_append_inj he2)

/-- Document-blob keys never collide with index keys. -/
theorem gk_doc_ne_index (docid x : String) :
    generateKey "doc" docid ≠ generateKey "index" x :=
  str_append_ne (p := "arc-library:doc:") (q := "arc-library:index:") (by decide) docid x

/-- Path-index keys never collide with index keys. -/
theorem gk_path_ne_index (p x : String) :
    generateKey "doc:path" p ≠ generateKey "index" x :=
  str_append_ne (p := "arc-library:doc:path:") (q := "arc-library:index:") (by decide) p x

/-- Path-index keys never collide with source-index keys. -/
theorem gk_path_ne_source (p sk : String) :
    generateKey "doc:path" p ≠ generateKey "doc:source" sk :=
  str_append_ne (p := "arc-library:doc:path:") (q := "arc-library:doc:source:") (by decide) p sk

/-- Source-index keys never collide with index keys. -/
theorem gk_source_ne_index (sk x : String) :
    generateKey "doc:source" sk ≠ generateKey "index" x :=
  str_append_ne (p := "arc-library:doc:source:") (q := "arc-library:index:") (by decide) sk x

/-- Collection-blob keys never collide with index keys. -/
theorem gk_collection_ne_index (cid x : String) :
    generateKey "collection" cid ≠ generateKey "index" x :=
  str_append_ne (p := "arc-library:collection:") (q := "arc-library:index:") (by decide) cid x

/-- `addToDocumentIndex` only touches the document roster key. -/
theorem kvGet_addToDocumentIndex_other (x : String) (kv : KV) (k : String)
    (h : k ≠ generateKey "index" "documents") :
    kvGet (KVStore.addToDocumentIndex x kv) k = kvGet kv k := by
  simp only [KVStore.addToDocumentIndex]
  repeat' split
  all_goals first | rfl | exact kvGet_set_other _ _ _ _ h

/-- `addToCollectionIndex` only touches the collection roster key. -/
theorem kvGet_addToCollectionIndex_other (x : String) (kv : KV) (k : String)
    (h : k ≠ generateKey "index" "collections") :
    kvGet (KVStore.addToCollectionIndex x kv) k = kvGet kv k := by
  simp only [KVStore.addToCollectionIndex]
  repeat' split
  all_goals first | rfl | exact kvGet_set_other _ _ _ _ h

/-- C4 counterexample: on the key-value engine, adding a second document
with the same path as an existing one does not fail and does not leave the
store unchanged: both documents are stored and the path index now resolves
to the second one. -/
theorem C4_counterexample :
    KVStore.GetDocument
        (KVStore.AddDocument 2 { id := "d2", path := "/p" }
          (KVStore.AddDocument 1 { id := "d1", path := "/p" } []).2).2 "d2" =
      .ok (some { id := "d2", path := "/p", createdAt := 2, updatedAt := 2 }) ∧
    KVStore.GetDocumentByPath
        (KVStore.AddDocument 2 { id := "d2", path := "/p" }
          (KVStore.AddDocument 1 { id := "d1", path := "/p" } []).2).2 "/p" =
      .ok (some { id := "d2", path := "/p", createdAt := 2, updatedAt := 2 }) ∧
    KVStore.GetDocument
        (KVStore.AddDocument 2 { id := "d2", path := "/p" }
          (KVStore.AddDocument 1 { id := "d1", path := "/p" } []).2).2 "d1" =
      .ok (some { id := "d1", path := "/p", createdAt := 1, updatedAt := 1 }) := by
  exact ⟨by with_unfolding_all rfl, by with_unfolding_all rfl, by with_unfolding_all rfl⟩

/-- C4 amended: AddDocument performs no uniqueness check on any backend:
the key-value engine stores a duplicate-path document and silently repoints
the path index at it, and the relational schema has no UNIQUE constraint on
path (the insert succeeds even when another row has the same path).  Only
CreateCollection on the relational engine fails for a duplicate name, via
the schema UNIQUE constraint (with a generic SQL error, not a
ValidationError); the key-value CreateCollection performs no name check and
stores the duplicate. -/
theorem C4_amended_uniqueness
    (now : Int) (doc : Document) (kv : KV) (db : SQLDB)
    (name desc : String) (d0 : Document)
    (hid : doc.id ≠ "")
    (hpath : doc.path ≠ "")
    (hyg1 : ∀ s, doc.id ≠ "path:" ++ s)
    (hyg2 : ∀ s, doc.id ≠ "source:" ++ s)
    (hdupKV : KVStore.GetDocumentByPath kv doc.path = .ok (some d0))
    (hdup0 : d0.id ≠ doc.id)
    (hfresh : ∀ dd ∈ db.documents, dd.id ≠ doc.id)
    (hdupSQL : ∃ dd ∈ db.documents, dd.path = doc.path)
    (hidfree : ∀ r ∈ db.collections, r.id ≠ "uuid:" ++ toString now)
    (hname : ∃ r ∈ db.collections, r.name = name) :
    KVStore.GetDocument (KVStore.AddDocument now doc kv).2 doc.id =
      .ok (some { doc with createdAt := now, updatedAt := now }) ∧
    KVStore.GetDocumentByPath (KVStore.AddDocument now doc kv).2 doc.path =
      .ok (some { doc with createdAt := now, updatedAt := now }) ∧
    Store.AddDocument now doc db =
      .ok ({ doc with createdAt := now, updatedAt := now },
        { db with documents := db.documents ++ [{ doc with createdAt := now, updatedAt := now }] }) ∧
    Store.CreateCollection now name desc db =
      .error (.generic "UNIQUE constraint failed: collections.name") ∧
    KVStore.getCollectionByID (KVStore.CreateCollection now name desc kv).2
        ("collection:" ++ toString now) =
      .ok (some { id := "collection:" ++ toString now, name := name, description := desc,
                  createdAt := now, updatedAt := now }) := by
  have hblob : KVStore.GetDocument (KVStore.AddDocument now doc kv).2 doc.id =
      .ok (some { doc with createdAt := now, updatedAt := now }) := by
    simp only [KVStore.AddDocument, if_neg hid, KVStore.GetDocument]
    rw [kvGet_addToDocumentIndex_other _ _ _ (gk_doc_ne_index doc.id "documents")]
    by_cases hsrc : doc.source ≠ "" ∧ doc.sourceID ≠ ""
    · rw [if_pos hsrc,
        kvGet_set_other _ _ _ _ (gk_doc_ne_source doc.id _ hyg2),
        if_pos hpath,
        kvGet_set_other _ _ _ _ (gk_doc_ne_path doc.id _ hyg1),
        kvGet_set_self]
      rfl
    · rw [if_neg hsrc, if_pos hpath,
        kvGet_set_other _ _ _ _ (gk_doc_ne_path doc.id _ hyg1),
        kvGet_set_self]
      rfl
  refine ⟨hblob, ?_, ?_, ?_, ?_⟩
  · have hpkey : kvGet (KVStore.AddDocument now doc kv).2 (generateKey "doc:path" doc.path) =
        some (.idBytes doc.id) := by
      simp only [KVStore.AddDocument, if_neg hid]
      rw [kvGet_addToDocumentIndex_other _ _ _ (gk_path_ne_index doc.path "documents")]
      by_cases hsrc : doc.source ≠ "" ∧ doc.sourceID ≠ ""
      · rw [if_pos hsrc,
          kvGet_set_other _ _ _ _ (gk_path_ne_source doc.path _),
          if_pos hpath, kvGet_set_self]
      · rw [if_neg hsrc, if_pos hpath, kvGet_set_self]
    rw [KVStore.GetDocumentByPath, hpkey]
    exact hblob
  · simp only [Store.AddDocument, if_neg hid]
    rw [if_neg]
    rw [List.any_eq_true]
    push_neg
    intro dd hdd
    simpa using hfresh dd hdd
  · simp only [Store.CreateCollection]
    rw [if_neg, if_pos]
    · rw [List.any_eq_true]
      rcases hname with ⟨r, hr, hrn⟩
      exact ⟨r, hr, by simp [hrn]⟩
    · rw [List.any_eq_true]
      push_neg
      intro r hr
      simpa using hidfree r hr
  · simp only [KVStore.CreateCollection, KVStore.getCollectionByID]
    rw [kvGet_addToCollectionIndex_other _ _ _ (gk_collection_ne_index _ "collections"),
      kvGet_set_self]
    rfl

/-- Short ids cannot start with a longer prefix. -/
theorem ne_prefix_of_short (x p : String) (h : x.length < p.length) :
    ∀ s, x ≠ p ++ s := by
  intro s he
  have hl := congrArg String.length he
  rw [String.length_append] at hl
  omega

/-- C4 amended witness: a concrete duplicate-path add on both engines and a
duplicate-name collection on both engines. -/
theorem C4_amended_uniqueness_witness :
    KVStore.GetDocument
        (KVStore.AddDocument 9 { id := "d2", path := "/p" }
          (KVStore.AddDocument 1 { id := "d1", path := "/p" } []).2).2 "d2" =
      .ok (some { id := "d2", path := "/p", createdAt := 9, updatedAt := 9 }) ∧
    KVStore.GetDocumentByPath
        (KVStore.AddDocument 9 { id := "d2", path := "/p" }
          (KVStore.AddDocument 1 { id := "d1", path := "/p" } []).2).2 "/p" =
      .ok (some { id := "d2", path := "/p", createdAt := 9, updatedAt := 9 }) ∧
    Store.AddDocument 9 { id := "d2", path := "/p" }
        { documents := [{ id := "d1", path := "/p" }],
          collections := [{ id := "c0", name := "dup" }] } =
      .ok ({ id := "d2", path := "/p", createdAt := 9, updatedAt := 9 },
        { documents := [{ id := "d1", path := "/p" },
            { id := "d2", path := "/p", createdAt := 9, updatedAt := 9 }],
          collections := [{ id := "c0", name := "dup" }] }) ∧
    Store.CreateCollection 9 "dup" ""
        { documents := [{ id := "d1", path := "/p" }],
          collections := [{ id := "c0", name := "dup" }] } =
      .error (.generic "UNIQUE constraint failed: collections.name") ∧
    KVStore.getCollectionByID
        (KVStore.CreateCollection 9 "dup" ""
          (KVStore.AddDocument 9 { id := "d2", path := "/p" }
            (KVStore.AddDocument 1 { id := "d1", path := "/p" } []).2).2).2
        ("collection:" ++ toString (9:Int)) =
      .ok (some { id := "collection:" ++ toString (9:Int), name := "dup", description := "",
                  createdAt := 9, updatedAt := 9 }) := by
  have h := C4_amended_uniqueness 9 { id := "d2", path := "/p" }
      (KVStore.AddDocument 1 { id := "d1", path := "/p" } []).2
      { documents := [{ id := "d1", path := "/p" }],
        collections := [{ id := "c0", name := "dup" }] }
      "dup" "" { id := "d1", path := "/p", createdAt := 1, updatedAt := 1 }
      (by decide) (by decide)
      (ne_prefix_of_short _ _ (by decide)) (ne_prefix_of_short _ _ (by decide))
      (by with_unfolding_all rfl) (by decide)
      (by decide) (by decide) (by decide) (by decide)
  exact ⟨h.1, h.2.1, h.2.2.1, h.2.2.2.1, h.2.2.2.2⟩

/-- Same-namespace keys with different suffixes differ. -/
theorem gk_same_ne (pre : String) {x y : String} (h : x ≠ y) :
    generateKey pre x ≠ generateKey pre y :=
  fun he => h (generateKey_inj pre he)

/-- `updatePathIndex` only touches path-index keys. -/
theorem kvGet_updatePathIndex_other (doc existing : Document) (kv : KV) (k : String)
    (h : ∀ p, k ≠ generateKey "doc:path" p) :
    kvGet (KVStore.updatePathIndex doc existing kv) k = kvGet kv k := by
  simp only [KVStore.updatePathIndex]
  repeat' split
  all_goals
    first
    | rfl
    | rw [kvGet_set_other _ _ _ _ (h doc.path), kvGet_delete_other _ _ _ (h existing.path)]
    | rw [kvGet_delete_other _ _ _ (h existing.path)]

/-- After a path change, the stale path-index entry is gone. -/
theorem kvGet_updatePathIndex_old (doc existing : Document) (kv : KV)
    (hne : existing.path ≠ doc.path) :
    kvGet (KVStore.updatePathIndex doc existing kv)
      (generateKey "doc:path" existing.path) = none := by
  simp only [KVStore.updatePathIndex, if_neg hne]
  split
  · rw [kvGet_set_other _ _ _ _ (gk_same_ne _ hne), kvGet_delete_self]
  · rw [kvGet_delete_self]

/-- After a path change to a nonempty path, the new path-index entry is
written. -/
theorem kvGet_updatePathIndex_new (doc existing : Document) (kv : KV)
    (hne : existing.path ≠ doc.path) (hq : doc.path ≠ "") :
    kvGet (KVStore.updatePathIndex doc existing kv)
      (generateKey "doc:path" doc.path) = some (.idBytes doc.id) := by
  simp only [KVStore.updatePathIndex, if_neg hne, if_pos hq]
  exact kvGet_set_self _ _ _

/-- `updateSourceIndex` only touches source-index keys. -/
theorem kvGet_updateSourceIndex_other (doc existing : Document) (kv : KV) (k : String)
    (h : ∀ sk, k ≠ generateKey "doc:source" sk) :
    kvGet (KVStore.updateSourceIndex doc existing kv) k = kvGet kv k := by
  simp only [KVStore.updateSourceIndex]
  repeat' split
  all_goals
    first
    | rfl
    | rw [kvGet_set_other _ _ _ _ (h _), kvGet_delete_other _ _ _ (h _)]
    | rw [kvGet_set_other _ _ _ _ (h _)]
    | rw [kvGet_delete_other _ _ _ (h _)]

/-- After a source-pair change away from a complete pair with a different
source key, the stale source-index entry is gone. -/
theorem kvGet_updateSourceIndex_old (doc existing : Document) (kv : KV)
    (hch : ¬(existing.source = doc.source ∧ existing.sourceID = doc.sourceID))
    (hsk : existing.source ++ ":" ++ existing.sourceID ≠
      doc.source ++ ":" ++ doc.sourceID)
    (hold : existing.source ≠ "" ∧ existing.sourceID ≠ "") :
    kvGet (KVStore.updateSourceIndex doc existing kv)
      (generateKey "doc:source" (existing.source ++ ":" ++ existing.sourceID)) = none := by
  simp only [KVStore.updateSourceIndex, if_neg hch, if_pos hold]
  split
  · rw [kvGet_set_other _ _ _ _ (gk_same_ne _ hsk), kvGet_delete_self]
  · rw [kvGet_delete_self]

/-- After a source-pair change to a complete pair, the new source-index
entry is written. -/
theorem kvGet_updateSourceIndex_new (doc existing : Document) (kv : KV)
    (hch : ¬(existing.source = doc.source ∧ existing.sourceID = doc.sourceID))
    (hnew : doc.source ≠ "" ∧ doc.sourceID ≠ "") :
    kvGet (KVStore.updateSourceIndex doc existing kv)
      (generateKey "doc:source" (doc.source ++ ":" ++ doc.sourceID)) =
      some (.idBytes doc.id) := by
  simp only [KVStore.updateSourceIndex, if_neg hch, if_pos hnew]
  split <;> exact kvGet_set_self _ _ _

/-- C6: UpdateDocument preserves CreatedAt, stamps UpdatedAt with the
update time, stores the updated blob, and when the path (respectively the
source+sourceID pair) changed it retracts the stale secondary-index entry
and writes the new one in the same call, so GetDocumentByPath of the old
path is absent and the new path (when nonempty) resolves to the document;
likewise for GetDocumentBySourceID. -/
theorem C6_updateDocument_index_freshness
    (now : Int) (doc existing : Document) (kv : KV)
    (hex : KVStore.GetDocument kv doc.id = .ok (some existing))
    (hyg1 : ∀ s, doc.id ≠ "path:" ++ s)
    (hyg2 : ∀ s, doc.id ≠ "source:" ++ s) :
    ∀ d2 kv2, KVStore.UpdateDocument now doc kv = .ok (d2, kv2) →
      d2.createdAt = existing.createdAt ∧ d2.updatedAt = now ∧
      KVStore.GetDocument kv2 doc.id = .ok (some d2) ∧
      (existing.path ≠ doc.path →
        KVStore.GetDocumentByPath kv2 existing.path = .ok none ∧
        (doc.path ≠ "" → KVStore.GetDocumentByPath kv2 doc.path = .ok (some d2))) ∧
      (¬(existing.source = doc.source ∧ existing.sourceID = doc.sourceID) →
        (existing.source ++ ":" ++ existing.sourceID ≠ doc.source ++ ":" ++ doc.sourceID →
          existing.source ≠ "" ∧ existing.sourceID ≠ "" →
          KVStore.GetDocumentBySourceID kv2 existing.source existing.sourceID = .ok none) ∧
        (doc.source ≠ "" ∧ doc.sourceID ≠ "" →
          KVStore.GetDocumentBySourceID kv2 doc.source doc.sourceID = .ok (some d2))) := by
  intro d2 kv2 h
  simp only [KVStore.UpdateDocument, hex] at h
  injection h with h
  injection h with h1 h2
  set du : Document := { doc with createdAt := existing.createdAt, updatedAt := now }
    with hdu
  have hup : du.path = doc.path := by rw [hdu]
  have hus : du.source = doc.source := by rw [hdu]
  have husi : du.sourceID = doc.sourceID := by rw [hdu]
  have hui : du.id = doc.id := by rw [hdu]
  have hblob : KVStore.GetDocument kv2 doc.id = .ok (some d2) := by
    rw [KVStore.GetDocument, ← h2,
      kvGet_updateSourceIndex_other _ _ _ _ (fun sk => gk_doc_ne_source doc.id sk hyg2),
      kvGet_updatePathIndex_other _ _ _ _ (fun p => gk_doc_ne_path doc.id p hyg1),
      kvGet_set_self, h1]
    rfl
  refine ⟨by rw [← h1], by rw [← h1], hblob, ?_, ?_⟩
  · intro hpne
    have hpne2 : existing.path ≠ du.path := by rw [hup]; exact hpne
    constructor
    · rw [KVStore.GetDocumentByPath, ← h2,
        kvGet_updateSourceIndex_other _ _ _ _ (fun sk => gk_path_ne_source existing.path sk),
        kvGet_updatePathIndex_old _ _ _ hpne2]
    · intro hq
      have hq2 : du.path ≠ "" := by rw [hup]; exact hq
      rw [KVStore.GetDocumentByPath, ← h2]
      rw [show generateKey "doc:path" doc.path = generateKey "doc:path" du.path from by rw [hup]]
      rw [kvGet_updateSourceIndex_other _ _ _ _ (fun sk => gk_path_ne_source du.path sk),
        kvGet_updatePathIndex_new _ _ _ hpne2 hq2]
      simp only [rawString]
      rw [h2, hui]
      exact hblob
  · intro hch
    have hch2 : ¬(existing.source = du.source ∧ existing.sourceID = du.sourceID) := by
      rw [hus, husi]; exact hch
    constructor
    · intro hsk hold
      have hsk2 : existing.source ++ ":" ++ existing.sourceID ≠
          du.source ++ ":" ++ du.sourceID := by rw [hus, husi]; exact hsk
      rw [KVStore.GetDocumentBySourceID, ← h2,
        kvGet_updateSourceIndex_old _ _ _ hch2 hsk2 hold]
    · intro hnew
      have hnew2 : du.source ≠ "" ∧ du.sourceID ≠ "" := by rw [hus, husi]; exact hnew
      rw [KVStore.GetDocumentBySourceID, ← h2]
      rw [show generateKey "doc:source" (doc.source ++ ":" ++ doc.sourceID) =
          generateKey "doc:source" (du.source ++ ":" ++ du.sourceID) from by rw [hus, husi]]
      rw [kvGet_updateSourceIndex_new _ _ _ hch2 hnew2]
      simp only [rawString]
      rw [h2, hui]
      exact hblob

/-- C6 witness: updating a document from path /p1, source s1:x1 to path
/p2, source s2:x2 makes the old lookups absent and the new ones resolve. -/
theorem C6_updateDocument_index_freshness_witness :
    ({ id := "d1", path := "/p2", source := "s2", sourceID := "x2",
       createdAt := 1, updatedAt := 5 : Document }).createdAt = 1 ∧
    KVStore.GetDocument
        [(generateKey "doc:source" "s2:x2", KVVal.idBytes "d1"),
         (generateKey "doc:path" "/p2", KVVal.idBytes "d1"),
         (generateKey "doc" "d1", KVVal.docBlob
           { id := "d1", path := "/p2", source := "s2", sourceID := "x2",
             createdAt := 1, updatedAt := 5 })] "d1" =
      .ok (some { id := "d1", path := "/p2", source := "s2", sourceID := "x2",
                  createdAt := 1, updatedAt := 5 }) ∧
    KVStore.GetDocumentByPath
        [(generateKey "doc:source" "s2:x2", KVVal.idBytes "d1"),
         (generateKey "doc:path" "/p2", KVVal.idBytes "d1"),
         (generateKey "doc" "d1", KVVal.docBlob
           { id := "d1", path := "/p2", source := "s2", sourceID := "x2",
             createdAt := 1, updatedAt := 5 })] "/p1" = .ok none ∧
    KVStore.GetDocumentByPath
        [(generateKey "doc:source" "s2:x2", KVVal.idBytes "d1"),
         (generateKey "doc:path" "/p2", KVVal.idBytes "d1"),
         (generateKey "doc" "d1", KVVal.docBlob
           { id := "d1", path := "/p2", source := "s2", sourceID := "x2",
             createdAt := 1, updatedAt := 5 })] "/p2" =
      .ok (some { id := "d1", path := "/p2", source := "s2", sourceID := "x2",
                  createdAt := 1, updatedAt := 5 }) ∧
    KVStore.GetDocumentBySourceID
        [(generateKey "doc:source" "s2:x2", KVVal.idBytes "d1"),
         (generateKey "doc:path" "/p2", KVVal.idBytes "d1"),
         (generateKey "doc" "d1", KVVal.docBlob
           { id := "d1", path := "/p2", source := "s2", sourceID := "x2",
             createdAt := 1, updatedAt := 5 })] "s1" "x1" = .ok none ∧
    KVStore.GetDocumentBySourceID
        [(generateKey "doc:source" "s2:x2", KVVal.idBytes "d1"),
         (generateKey "doc:path" "/p2", KVVal.idBytes "d1"),
         (generateKey "doc" "d1", KVVal.docBlob
           { id := "d1", path := "/p2", source := "s2", sourceID := "x2",
             createdAt := 1, updatedAt := 5 })] "s2" "x2" =
      .ok (some { id := "d1", path := "/p2", source := "s2", sourceID := "x2",
                  createdAt := 1, updatedAt := 5 }) := by
  have h := C6_updateDocument_index_freshness 5
      { id := "d1", path := "/p2", source := "s2", sourceID := "x2" }
      { id := "d1", path := "/p1", source := "s1", sourceID := "x1",
        createdAt := 1, updatedAt := 1 }
      [(generateKey "doc" "d1", KVVal.docBlob
        { id := "d1", path := "/p1", source := "s1", sourceID := "x1",
          createdAt := 1, updatedAt := 1 })]
      (by with_unfolding_all rfl)
      (ne_prefix_of_short _ _ (by decide)) (ne_prefix_of_short _ _ (by decide))
      { id := "d1", path := "/p2", source := "s2", sourceID := "x2",
        createdAt := 1, updatedAt := 5 }
      [(generateKey "doc:source" "s2:x2", KVVal.idBytes "d1"),
       (generateKey "doc:path" "/p2", KVVal.idBytes "d1"),
       (generateKey "doc" "d1", KVVal.docBlob
         { id := "d1", path := "/p2", source := "s2", sourceID := "x2",
           createdAt := 1, updatedAt := 5 })]
      (by with_unfolding_all rfl)
  refine ⟨h.1, h.2.2.1, (h.2.2.2.1 (by decide)).1, (h.2.2.2.1 (by decide)).2 (by decide),
    (h.2.2.2.2 (by decide)).1 (by decide) (by decide),
    (h.2.2.2.2 (by decide)).2 (by decide)⟩

/-- Deletion never makes an absent key present. -/
theorem kvGet_delete_of_none (kv : KV) (k k2 : String) (h : kvGet kv k2 = none) :
    kvGet (kvDelete kv k) k2 = none := by
  by_cases h2 : k2 = k
  · subst h2; exact kvGet_delete_self kv k2
  · rw [kvGet_delete_other _ _ _ h2]; exact h

/-- Annotation-blob keys never collide with collection-blob keys. -/
theorem gk_ann_ne_coll (aid cid : String) :
    generateKey "annotation" aid ≠ generateKey "collection" cid :=
  str_append_ne (p := "arc-library:annotation:") (q := "arc-library:collection:") (by decide) aid cid

/-- Annotation-blob keys never collide with document-blob keys. -/
theorem gk_ann_ne_doc (aid x : String) :
    generateKey "annotation" aid ≠ generateKey "doc" x :=
  str_append_ne (p := "arc-library:annotation:") (q := "arc-library:doc:") (by decide) aid x

/-- Annotation-blob keys never collide with path-index keys. -/
theorem gk_ann_ne_path (aid p : String) :
    generateKey "annotation" aid ≠ generateKey "doc:path" p :=
  str_append_ne (p := "arc-library:annotation:") (q := "arc-library:doc:path:") (by decide) aid p

/-- Annotation-blob keys never collide with source-index keys. -/
theorem gk_ann_ne_source (aid sk : String) :
    generateKey "annotation" aid ≠ generateKey "doc:source" sk :=
  str_append_ne (p := "arc-library:annotation:") (q := "arc-library:doc:source:") (by decide) aid sk

/-- Annotation-blob keys never collide with index keys. -/
theorem gk_ann_ne_index (aid x : String) :
    generateKey "annotation" aid ≠ generateKey "index" x :=
  str_append_ne (p := "arc-library:annotation:") (q := "arc-library:index:") (by decide) aid x

/-- Collection-blob keys never collide with document-blob keys. -/
theorem gk_coll_ne_doc (cid x : String) :
    generateKey "collection" cid ≠ generateKey "doc" x :=
  str_append_ne (p := "arc-library:collection:") (q := "arc-library:doc:") (by decide) cid x

/-- Collection-blob keys never collide with path-index keys. -/
theorem gk_coll_ne_path (cid p : String) :
    generateKey "collection" cid ≠ generateKey "doc:path" p :=
  str_append_ne (p := "arc-library:collection:") (q := "arc-library:doc:path:") (by decide) cid p

/-- Collection-blob keys never collide with source-index keys. -/
theorem gk_coll_ne_source (cid sk : String) :
    generateKey "collection" cid ≠ generateKey "doc:source" sk :=
  str_append_ne (p := "arc-library:collection:") (q := "arc-library:doc:source:") (by decide) cid sk

/-- Collection-blob keys never collide with annotation-blob keys. -/
theorem gk_coll_ne_ann (cid aid : String) :
    generateKey "collection" cid ≠ generateKey "annotation" aid :=
  str_append_ne (p := "arc-library:collection:") (q := "arc-library:annotation:") (by decide) cid aid

/-- A per-document annotations index key never equals the document roster
key. -/
theorem gk_idxann_ne_documents (x : String) :
    generateKey "index" ("doc:annotations:" ++ x) ≠ generateKey "index" "documents" :=
  gk_same_ne "index"
    ((str_ne_append (p := "documents") (q := "doc:annotations:") (by decide) x).symm)

/-- A per-document annotations index key never equals the collection roster
key. -/
theorem gk_idxann_ne_collections (x : String) :
    generateKey "index" ("doc:annotations:" ++ x) ≠ generateKey "index" "collections" :=
  gk_same_ne "index"
    ((str_ne_append (p := "collections") (q := "doc:annotations:") (by decide) x).symm)

/-- Membership is preserved by the Go insertion sort. -/
theorem mem_goInsertOrd (le : α → α → Bool) (x a : α) :
    ∀ l : List α, a ∈ goInsertOrd le x l ↔ a = x ∨ a ∈ l := by
  intro l
  induction l with
  | nil => simp [goInsertOrd]
  | cons y ys ih =>
    simp only [goInsertOrd]
    split
    · simp only [List.mem_cons, ih]
      tauto
    · simp only [List.mem_cons]

/-- Membership is invariant under the Go insertion sort. -/
theorem mem_goInsertionSort (le : α → α → Bool) (a : α) :
    ∀ l : List α, a ∈ goInsertionSort le l ↔ a ∈ l := by
  intro l
  induction l with
  | nil => simp [goInsertionSort]
  | cons y ys ih =>
    simp only [goInsertionSort, mem_goInsertOrd, ih, List.mem_cons]

/-- `removeFromDocumentAnnotationsIndex` only touches per-document
annotations index keys. -/
theorem kvGet_removeAnnIdx_other (x aid : String) (kv : KV) (k : String)
    (h : ∀ y, k ≠ generateKey "index" ("doc:annotations:" ++ y)) :
    kvGet (KVStore.removeFromDocumentAnnotationsIndex x aid kv) k = kvGet kv k := by
  simp only [KVStore.removeFromDocumentAnnotationsIndex]
  repeat' split
  all_goals first | rfl | exact kvGet_set_other _ _ _ _ (h x)

/-- One collection-removal step only touches collection-blob keys. -/
theorem kvGet_removeFromAllStep_other (now : Int) (id : String) (st : KV) (c : Collection)
    (k : String) (h : ∀ cid, k ≠ generateKey "collection" cid) :
    kvGet (KVStore.removeFromAllStep now id st c) k = kvGet st k := by
  simp only [KVStore.removeFromAllStep, KVStore.RemoveFromCollection]
  repeat' split
  all_goals simp only [orKeep]
  all_goals first | rfl | exact kvGet_set_other _ _ _ _ (h _)

/-- One annotation-cascade step only touches annotation-blob keys and
per-document annotations index keys. -/
theorem kvGet_deleteAnnStep_other (st : KV) (a : Annot) (k : String)
    (h1 : ∀ aid, k ≠ generateKey "annotation" aid)
    (h2 : ∀ y, k ≠ generateKey "index" ("doc:annotations:" ++ y)) :
    kvGet (KVStore.deleteAnnStep st a) k = kvGet st k := by
  simp only [KVStore.deleteAnnStep, KVStore.DeleteAnnot]
  repeat' split
  all_goals simp only [orKeep]
  all_goals
    first
    | rfl
    | rw [kvGet_delete_other _ _ _ (h1 _), kvGet_removeAnnIdx_other _ _ _ _ h2]

/-- The collection-removal loop only touches collection-blob keys. -/
theorem kvGet_collFold_other (now : Int) (id : String) (l : List Collection) (st : KV)
    (k : String) (h : ∀ cid, k ≠ generateKey "collection" cid) :
    kvGet (l.foldl (KVStore.removeFromAllStep now id) st) k = kvGet st k := by
  induction l generalizing st with
  | nil => rfl
  | cons c rest ih =>
    rw [List.foldl_cons, ih, kvGet_removeFromAllStep_other now id st c k h]

/-- The annotation-cascade loop only touches annotation-blob keys and
per-document annotations index keys. -/
theorem kvGet_annFold_other (l : List Annot) (st : KV) (k : String)
    (h1 : ∀ aid, k ≠ generateKey "annotation" aid)
    (h2 : ∀ y, k ≠ generateKey "index" ("doc:annotations:" ++ y)) :
    kvGet (l.foldl KVStore.deleteAnnStep st) k = kvGet st k := by
  induction l generalizing st with
  | nil => rfl
  | cons a rest ih =>
    rw [List.foldl_cons, ih, kvGet_deleteAnnStep_other st a k h1 h2]

/-- Inversion: a successful collection lookup means the blob is stored
under that key. -/
theorem getCollectionByID_ok_some (kv : KV) (cid : String) (c : Collection)
    (h : KVStore.getCollectionByID kv cid = .ok (some c)) :
    kvGet kv (generateKey "collection" cid) = some (.collBlob c) := by
  revert h
  rw [KVStore.getCollectionByID]
  cases hv : kvGet kv (generateKey "collection" cid) with
  | none =>
    intro h
    injection h with h
    cases h
  | some v =>
    cases v <;> intro h <;>
      first
        | exact Except.noConfusion h
        | (injection h with h; injection h with h; rw [h])

/-- Blobs surviving the collection-removal loop are either original or have
the document filtered out. -/
theorem collFold_blob_cases (now : Int) (id : String) :
    ∀ (l : List Collection) (st : KV) (cid : String) (c2 : Collection),
      kvGet (l.foldl (KVStore.removeFromAllStep now id) st) (generateKey "collection" cid) =
        some (.collBlob c2) →
      kvGet st (generateKey "collection" cid) = some (.collBlob c2) ∨ id ∉ c2.documentIDs := by
  intro l
  induction l with
  | nil =>
    intro st cid c2 h
    exact Or.inl h
  | cons c rest ih =>
    intro st cid c2 h
    rw [List.foldl_cons] at h
    rcases ih _ cid c2 h with h2 | h2
    · revert h2
      simp only [KVStore.removeFromAllStep, KVStore.RemoveFromCollection]
      cases hstep : KVStore.getCollectionByID st c.id with
      | error e =>
        simp only [orKeep]
        exact Or.inl
      | ok oc =>
        cases oc with
        | none =>
          simp only [orKeep]
          exact Or.inl
        | some c0 =>
          simp only [orKeep]
          by_cases hk : generateKey "collection" cid = generateKey "collection" c0.id
          · rw [hk, kvGet_set_self]
            intro h3
            injection h3 with h3
            injection h3 with h3
            right
            rw [← h3]
            simp
          · rw [kvGet_set_other _ _ _ _ hk]
            exact Or.inl
    · exact Or.inr h2

/-- The stored-id invariant for collections survives one removal step. -/
theorem wfColl_removeFromAllStep (now : Int) (id : String) (st : KV) (c : Collection)
    (h : ∀ cid c0, kvGet st (generateKey "collection" cid) = some (.collBlob c0) → c0.id = cid) :
    ∀ cid c0, kvGet (KVStore.removeFromAllStep now id st c) (generateKey "collection" cid) =
        some (.collBlob c0) → c0.id = cid := by
  intro cid c2
  simp only [KVStore.removeFromAllStep, KVStore.RemoveFromCollection]
  cases hstep : KVStore.getCollectionByID st c.id with
  | error e =>
    simp only [orKeep]
    exact h cid c2
  | ok oc =>
    cases oc with
    | none =>
      simp only [orKeep]
      exact h cid c2
    | some c0 =>
      simp only [orKeep]
      by_cases hk : generateKey "collection" cid = generateKey "collection" c0.id
      · rw [hk, kvGet_set_self]
        intro h3
        injection h3 with h3
        injection h3 with h3
        have hcid0 : cid = c0.id := generateKey_inj _ hk
        rw [← h3, hcid0]
      · rw [kvGet_set_other _ _ _ _ hk]
        exact h cid c2

/-- A collection processed by the removal loop ends with the document
filtered out of any surviving blob under its key. -/
theorem collFold_removes (now : Int) (id : String) :
    ∀ (l : List Collection) (st : KV) (c1 : Collection), c1 ∈ l →
      (∀ cid c0, kvGet st (generateKey "collection" cid) = some (.collBlob c0) → c0.id = cid) →
      ∀ c2, kvGet (l.foldl (KVStore.removeFromAllStep now id) st)
          (generateKey "collection" c1.id) = some (.collBlob c2) →
        id ∉ c2.documentIDs := by
  intro l
  induction l with
  | nil =>
    intro st c1 h
    cases h
  | cons c rest ih =>
    intro st c1 hmem hwf c2 h
    rw [List.foldl_cons] at h
    rcases List.mem_cons.mp hmem with he | hm
    · subst he
      rcases collFold_blob_cases now id rest _ c1.id c2 h with h2 | h2
      · revert h2
        simp only [KVStore.removeFromAllStep, KVStore.RemoveFromCollection]
        cases hstep : KVStore.getCollectionByID st c1.id with
        | error e =>
          simp only [orKeep]
          intro h2
          exfalso
          have hok : KVStore.getCollectionByID st c1.id = .ok (some c2) := by
            rw [KVStore.getCollectionByID, h2]
            rfl
          rw [hok] at hstep
          exact Except.noConfusion hstep
        | ok oc =>
          cases oc with
          | none =>
            simp only [orKeep]
            intro h2
            exfalso
            have hok : KVStore.getCollectionByID st c1.id = .ok (some c2) := by
              rw [KVStore.getCollectionByID, h2]
              rfl
            rw [hok] at hstep
            injection hstep with hstep
            cases hstep
          | some c0 =>
            simp only [orKeep]
            have hc0 : c0.id = c1.id :=
              hwf c1.id c0 (getCollectionByID_ok_some st c1.id c0 hstep)
            rw [hc0]
            rw [kvGet_set_self]
            intro h2
            injection h2 with h2
            injection h2 with h2
            rw [← h2]
            simp
      · exact h2
    · exact ih (KVStore.removeFromAllStep now id st c) c1 hm
        (wfColl_removeFromAllStep now id st c hwf) c2 h

/-- Membership introduction for `GetAnnotations`. -/
theorem mem_getAnnotations (st : KV) (id aid : String) (a : Annot)
    (h1 : aid ∈ KVStore.annRoster st id)
    (h2 : kvGet st (generateKey "annotation" aid) = some (.annBlob a)) :
    a ∈ KVStore.GetAnnotations st id := by
  rw [KVStore.GetAnnotations]
  apply List.mem_filterMap.mpr
  refine ⟨aid, h1, ?_⟩
  rw [h2]
  rfl

/-- One annotation-cascade step either leaves an annotation key unchanged
or removes it. -/
theorem deleteAnnStep_dichotomy (st : KV) (b : Annot) (aid : String) :
    kvGet (KVStore.deleteAnnStep st b) (generateKey "annotation" aid) =
      kvGet st (generateKey "annotation" aid) ∨
    kvGet (KVStore.deleteAnnStep st b) (generateKey "annotation" aid) = none := by
  simp only [KVStore.deleteAnnStep, KVStore.DeleteAnnot]
  cases hv : kvGet st (generateKey "annotation" b.id) with
  | none => exact Or.inl rfl
  | some v =>
    cases v with
    | annBlob a0 =>
      simp only [asAnn, orKeep]
      by_cases hk : generateKey "annotation" aid = generateKey "annotation" b.id
      · right
        rw [hk, kvGet_delete_self]
      · left
        rw [kvGet_delete_other _ _ _ hk,
          kvGet_removeAnnIdx_other _ _ _ _
            (fun y => gk_ann_ne_index aid ("doc:annotations:" ++ y))]
    | strList l => exact Or.inl rfl
    | idBytes s => exact Or.inl rfl
    | docBlob d => exact Or.inl rfl
    | collBlob c => exact Or.inl rfl
    | sessBlob s => exact Or.inl rfl
    | cardBlob c => exact Or.inl rfl
    | reviewBlob r => exact Or.inl rfl
    | corrupt => exact Or.inl rfl

/-- The annotation-cascade loop either leaves an annotation key unchanged
or removes it. -/
theorem annFold_dichotomy (l : List Annot) (st : KV) (aid : String) :
    kvGet (l.foldl KVStore.deleteAnnStep st) (generateKey "annotation" aid) =
      kvGet st (generateKey "annotation" aid) ∨
    kvGet (l.foldl KVStore.deleteAnnStep st) (generateKey "annotation" aid) = none := by
  induction l generalizing st with
  | nil => exact Or.inl rfl
  | cons b rest ih =>
    rw [List.foldl_cons]
    rcases ih (KVStore.deleteAnnStep st b) with h | h
    · rw [h]
      exact deleteAnnStep_dichotomy st b aid
    · exact Or.inr h

/-- An absent annotation key stays absent through the cascade loop. -/
theorem annFold_none_mono (l : List Annot) (st : KV) (aid : String)
    (h : kvGet st (generateKey "annotation" aid) = none) :
    kvGet (l.foldl KVStore.deleteAnnStep st) (generateKey "annotation" aid) = none := by
  rcases annFold_dichotomy l st aid with h2 | h2
  · rw [h2, h]
  · exact h2

/-- Every annotation in the processed list has its blob removed by the
cascade loop, provided the blob was filed under its own id. -/
theorem annFold_deletes :
    ∀ (l : List Annot) (st : KV) (a : Annot), a ∈ l →
      (kvGet st (generateKey "annotation" a.id) = none ∨
       kvGet st (generateKey "annotation" a.id) = some (.annBlob a)) →
      kvGet (l.foldl KVStore.deleteAnnStep st) (generateKey "annotation" a.id) = none := by
  intro l
  induction l with
  | nil =>
    intro st a h
    cases h
  | cons b rest ih =>
    intro st a hmem hpre
    rw [List.foldl_cons]
    rcases List.mem_cons.mp hmem with he | hm
    · subst he
      rcases hpre with hpre | hpre
      · apply annFold_none_mono
        rcases deleteAnnStep_dichotomy st a a.id with h2 | h2
        · rw [h2, hpre]
        · exact h2
      · apply annFold_none_mono
        simp only [KVStore.deleteAnnStep, KVStore.DeleteAnnot, hpre, asAnn, orKeep]
        rw [kvGet_delete_self]
    · apply ih (KVStore.deleteAnnStep st b) a hm
      rcases deleteAnnStep_dichotomy st b a.id with h2 | h2
      · rw [h2]
        exact hpre
      · exact Or.inl h2

/-- `removeFromDocumentAnnotationsIndex` can only shrink an annotations
roster. -/
theorem annRoster_removeAnnIdx_subset (x aid : String) (st : KV) (id : String) :
    KVStore.annRoster (KVStore.removeFromDocumentAnnotationsIndex x aid st) id ⊆
      KVStore.annRoster st id := by
  simp only [KVStore.removeFromDocumentAnnotationsIndex]
  cases hv : kvGet st (generateKey "index" ("doc:annotations:" ++ x)) with
  | none => exact fun y hy => hy
  | some v =>
    cases v with
    | strList ids =>
      simp only [asStrList]
      by_cases hk : generateKey "index" ("doc:annotations:" ++ id) =
          generateKey "index" ("doc:annotations:" ++ x)
      · simp only [KVStore.annRoster, hk, kvGet_set_self, hv, asStrList]
        exact fun y hy => List.mem_of_mem_filter hy
      · simp only [KVStore.annRoster, kvGet_set_other _ _ _ _ hk]
        exact fun y hy => hy
    | idBytes s => exact fun y hy => hy
    | docBlob d => exact fun y hy => hy
    | collBlob c => exact fun y hy => hy
    | annBlob a => exact fun y hy => hy
    | sessBlob s => exact fun y hy => hy
    | cardBlob c => exact fun y hy => hy
    | reviewBlob r => exact fun y hy => hy
    | corrupt => exact fun y hy => hy

/-- One annotation-cascade step can only shrink an annotations roster. -/
theorem annRoster_deleteAnnStep_subset (st : KV) (b : Annot) (id : String) :
    KVStore.annRoster (KVStore.deleteAnnStep st b) id ⊆ KVStore.annRoster st id := by
  simp only [KVStore.deleteAnnStep, KVStore.DeleteAnnot]
  cases hv : kvGet st (generateKey "annotation" b.id) with
  | none => exact fun y hy => hy
  | some v =>
    cases v with
    | annBlob a0 =>
      simp only [asAnn, orKeep]
      intro y hy
      apply annRoster_removeAnnIdx_subset _ _ st id
      revert hy
      simp only [KVStore.annRoster,
        kvGet_delete_other _ _ _ ((gk_ann_ne_index b.id ("doc:annotations:" ++ id)).symm)]
      exact fun hy => hy
    | strList l => exact fun y hy => hy
    | idBytes s => exact fun y hy => hy
    | docBlob d => exact fun y hy => hy
    | collBlob c => exact fun y hy => hy
    | sessBlob s => exact fun y hy => hy
    | cardBlob c => exact fun y hy => hy
    | reviewBlob r => exact fun y hy => hy
    | corrupt => exact fun y hy => hy

/-- The annotation-cascade loop can only shrink an annotations roster. -/
theorem annFold_roster_subset (l : List Annot) (st : KV) (id : String) :
    KVStore.annRoster (l.foldl KVStore.deleteAnnStep st) id ⊆ KVStore.annRoster st id := by
  induction l generalizing st with
  | nil => exact fun y hy => hy
  | cons b rest ih =>
    rw [List.foldl_cons]
    exact fun y hy => annRoster_deleteAnnStep_subset st b id (ih (KVStore.deleteAnnStep st b) hy)
/-- `collWF` gives the pointwise well-filing fact used by the cascade
proofs. -/
theorem collWF_sound (kv : KV) (h : collWF kv = true) :
    ∀ cid c, kvGet kv (generateKey "collection" cid) = some (.collBlob c) → c.id = cid := by
  intro cid c hg
  revert hg
  rw [kvGet]
  cases hf : kv.find? (fun e => e.1 == generateKey "collection" cid) with
  | none =>
    intro hg
    cases hg
  | some e =>
    intro hg
    injection hg with hg
    have hmem := List.mem_of_find?_eq_some hf
    have hpred := List.find?_some hf
    have hall := List.all_eq_true.mp h e hmem
    rw [hg] at hall
    have h1 : e.1 = generateKey "collection" cid := by
      exact eq_of_beq hpred
    rw [h1] at hall
    have h2 : generateKey "collection" cid = generateKey "collection" c.id := eq_of_beq hall
    exact (generateKey_inj _ h2).symm

/-- `annWF` gives the pointwise well-filing fact used by the cascade
proofs. -/
theorem annWF_sound (kv : KV) (h : annWF kv = true) :
    ∀ aid a, kvGet kv (generateKey "annotation" aid) = some (.annBlob a) → a.id = aid := by
  intro aid a hg
  revert hg
  rw [kvGet]
  cases hf : kv.find? (fun e => e.1 == generateKey "annotation" aid) with
  | none =>
    intro hg
    cases hg
  | some e =>
    intro hg
    injection hg with hg
    have hmem := List.mem_of_find?_eq_some hf
    have hpred := List.find?_some hf
    have hall := List.all_eq_true.mp h e hmem
    rw [hg] at hall
    have h1 : e.1 = generateKey "annotation" aid := by
      exact eq_of_beq hpred
    rw [h1] at hall
    have h2 : generateKey "annotation" aid = generateKey "annotation" a.id := eq_of_beq hall
    exact (generateKey_inj _ h2).symm

/-- Inversion: a successful document lookup means the blob is stored under
that key. -/
theorem getDocument_ok_some (kv : KV) (id : String) (d : Document)
    (h : KVStore.GetDocument kv id = .ok (some d)) :
    kvGet kv (generateKey "doc" id) = some (.docBlob d) := by
  revert h
  rw [KVStore.GetDocument]
  cases hv : kvGet kv (generateKey "doc" id) with
  | none =>
    intro h
    injection h with h
    cases h
  | some v =>
    cases v <;> intro h <;>
      first
        | exact Except.noConfusion h
        | (injection h with h; injection h with h; rw [h])

/-- `GetAnnotations` only depends on the per-document annotations index
key and the annotation blob keys. -/
theorem getAnnotations_frame (st st' : KV) (id : String)
    (hidx : kvGet st' (generateKey "index" ("doc:annotations:" ++ id)) =
      kvGet st (generateKey "index" ("doc:annotations:" ++ id)))
    (hblob : ∀ aid, kvGet st' (generateKey "annotation" aid) =
      kvGet st (generateKey "annotation" aid)) :
    KVStore.GetAnnotations st' id = KVStore.GetAnnotations st id := by
  have hr : KVStore.annRoster st' id = KVStore.annRoster st id := by
    rw [KVStore.annRoster, KVStore.annRoster, hidx]
  rw [KVStore.GetAnnotations, KVStore.GetAnnotations, hr]
  apply List.filterMap_congr
  intro aid _
  rw [hblob aid]

/-- Running the annotation-cascade loop of `DeleteDocument` over exactly
the annotations that `GetAnnotations` returns empties the listing. -/
theorem getAnnotations_annFold (st : KV) (id : String)
    (hwf : ∀ aid a, kvGet st (generateKey "annotation" aid) = some (.annBlob a) → a.id = aid) :
    KVStore.GetAnnotations
      ((KVStore.GetAnnotations st id).foldl KVStore.deleteAnnStep st) id = [] := by
  rw [KVStore.GetAnnotations]
  apply List.filterMap_eq_nil_iff.mpr
  intro aid hmem
  have hmemA : aid ∈ KVStore.annRoster st id :=
    annFold_roster_subset (KVStore.GetAnnotations st id) st id hmem
  rcases annFold_dichotomy (KVStore.GetAnnotations st id) st aid with hd | hd
  · show (match kvGet ((KVStore.GetAnnotations st id).foldl KVStore.deleteAnnStep st)
        (generateKey "annotation" aid) with
      | none => none
      | some v => asAnn v) = none
    rw [hd]
    cases hva : kvGet st (generateKey "annotation" aid) with
    | none => rfl
    | some w =>
      cases w with
      | annBlob a =>
        exfalso
        have haid : a.id = aid := hwf aid a hva
        have hmem2 : a ∈ KVStore.GetAnnotations st id :=
          mem_getAnnotations st id aid a hmemA hva
        have hdel := annFold_deletes (KVStore.GetAnnotations st id) st a hmem2
          (Or.inr (by rw [haid]; exact hva))
        rw [haid] at hdel
        rw [hd, hva] at hdel
        exact Option.noConfusion hdel
      | strList l => rfl
      | idBytes s => rfl
      | docBlob d => rfl
      | collBlob c => rfl
      | sessBlob s => rfl
      | cardBlob c => rfl
      | reviewBlob r => rfl
      | corrupt => rfl
  · show (match kvGet ((KVStore.GetAnnotations st id).foldl KVStore.deleteAnnStep st)
        (generateKey "annotation" aid) with
      | none => none
      | some v => asAnn v) = none
    rw [hd]
/-- `removeFromDocumentIndex` only touches the document roster key. -/
theorem kvGet_removeFromDocumentIndex_other (x : String) (st : KV) (k : String)
    (h : k ≠ generateKey "index" "documents") :
    kvGet (KVStore.removeFromDocumentIndex x st) k = kvGet st k := by
  simp only [KVStore.removeFromDocumentIndex]
  repeat' split
  all_goals first | rfl | exact kvGet_set_other _ _ _ _ h

/-- After `removeFromDocumentIndex id`, the id is absent from the roster. -/
theorem documentRoster_remove_self (id : String) (st : KV) :
    id ∉ KVStore.documentRoster (KVStore.removeFromDocumentIndex id st) := by
  rw [KVStore.removeFromDocumentIndex]
  cases hv : kvGet st (generateKey "index" "documents") with
  | none =>
    simp only [KVStore.documentRoster, hv]
    exact List.not_mem_nil id
  | some v =>
    cases v with
    | strList ids =>
      simp only [asStrList, KVStore.documentRoster, kvGet_set_self]
      simp [List.mem_filter]
    | idBytes s => simp only [asStrList, KVStore.documentRoster, hv]; exact List.not_mem_nil id
    | docBlob d => simp only [asStrList, KVStore.documentRoster, hv]; exact List.not_mem_nil id
    | collBlob c => simp only [asStrList, KVStore.documentRoster, hv]; exact List.not_mem_nil id
    | annBlob a => simp only [asStrList, KVStore.documentRoster, hv]; exact List.not_mem_nil id
    | sessBlob s => simp only [asStrList, KVStore.documentRoster, hv]; exact List.not_mem_nil id
    | cardBlob c => simp only [asStrList, KVStore.documentRoster, hv]; exact List.not_mem_nil id
    | reviewBlob r => simp only [asStrList, KVStore.documentRoster, hv]; exact List.not_mem_nil id
    | corrupt => simp only [asStrList, KVStore.documentRoster, hv]; exact List.not_mem_nil id

/-- Filtering twice with the same predicate filters once. -/
theorem filter_idem (p : α → Bool) (l : List α) : (l.filter p).filter p = l.filter p :=
  List.filter_eq_self.mpr (fun a ha => List.of_mem_filter ha)

/-- The relational `DeleteDocument` is idempotent. -/
theorem sqlDelete_idem (id : String) (db : SQLDB) :
    Store.DeleteDocument id (Store.DeleteDocument id db) = Store.DeleteDocument id db := by
  have hdead2 : ((db.flashcards.filter (fun c => c.documentID != id)).filter
      (fun c => c.documentID == id)) = [] := by
    apply List.filter_eq_nil_iff.mpr
    intro c hc
    have h1 := List.of_mem_filter hc
    simp only [bne_iff_ne, ne_eq] at h1
    simp [h1]
  simp only [Store.DeleteDocument, filter_idem, hdead2, List.any_nil, Bool.not_false]
  simp

/-- Unfolding of the happy path of `DeleteDocument`: the document exists
and is readable, so the cascade pipeline runs to the end. -/
theorem deleteDocument_ok (now : Int) (id : String) (kv : KV) (doc : Document)
    (hdoc : KVStore.GetDocument kv id = .ok (some doc)) :
    KVStore.DeleteDocument now id kv = .ok (
      let stA := (KVStore.ListCollections kv).foldl (KVStore.removeFromAllStep now id) kv
      let stB := (KVStore.GetAnnotations stA id).foldl KVStore.deleteAnnStep stA
      let stC := kvDelete stB (generateKey "doc:path" doc.path)
      let stD := if doc.source ≠ "" ∧ doc.sourceID ≠ "" then
          kvDelete stC (generateKey "doc:source" (doc.source ++ ":" ++ doc.sourceID))
        else stC
      kvDelete (KVStore.removeFromDocumentIndex id stD) (generateKey "doc" id)) := by
  simp only [KVStore.DeleteDocument, hdoc]
/-- C5: For every document id, DeleteDocument removes the document blob,
its path and source secondary-index entries, all of its annotations (so
GetAnnotations becomes empty on both engines), its membership entry in
every collection, and its roster-index entry; and deleting an
already-absent id succeeds, returning the store unchanged (shown on the
key-value engine for any store satisfying the engine's well-filing
invariants, and on the relational engine where the cascade is idempotent). -/
theorem C5_deleteDocument_cascade (now : Int) (id : String) (kv : KV) (doc : Document)
    (db : SQLDB)
    (hdoc : KVStore.GetDocument kv id = .ok (some doc))
    (hwfC : collWF kv = true)
    (hwfA : annWF kv = true) :
    ∃ kv2, KVStore.DeleteDocument now id kv = .ok kv2 ∧
      KVStore.GetDocument kv2 id = .ok none ∧
      KVStore.GetAnnotations kv2 id = [] ∧
      id ∉ KVStore.documentRoster kv2 ∧
      kvGet kv2 (generateKey "doc:path" doc.path) = none ∧
      (doc.source ≠ "" ∧ doc.sourceID ≠ "" →
        kvGet kv2 (generateKey "doc:source" (doc.source ++ ":" ++ doc.sourceID)) = none) ∧
      (∀ c, c ∈ KVStore.ListCollections kv → ∀ c2,
        kvGet kv2 (generateKey "collection" c.id) = some (.collBlob c2) →
        id ∉ c2.documentIDs) ∧
      (∀ now2, KVStore.DeleteDocument now2 id kv2 = .ok kv2) ∧
      (∀ kvx, KVStore.GetDocument kvx id = .ok none →
        KVStore.DeleteDocument now id kvx = .ok kvx) ∧
      (∀ d, d ∈ (Store.DeleteDocument id db).documents → d.id ≠ id) ∧
      Store.GetAnnotations (Store.DeleteDocument id db) id = [] ∧
      (∀ r, r ∈ (Store.DeleteDocument id db).collectionDocuments → r.documentID ≠ id) ∧
      Store.DeleteDocument id (Store.DeleteDocument id db) = Store.DeleteDocument id db := by
  have hC := collWF_sound kv hwfC
  have hA := annWF_sound kv hwfA
  set stA := (KVStore.ListCollections kv).foldl (KVStore.removeFromAllStep now id) kv with hstA
  set stB := (KVStore.GetAnnotations stA id).foldl KVStore.deleteAnnStep stA with hstB
  set stC := kvDelete stB (generateKey "doc:path" doc.path) with hstC
  set stD := (if doc.source ≠ "" ∧ doc.sourceID ≠ "" then
      kvDelete stC (generateKey "doc:source" (doc.source ++ ":" ++ doc.sourceID))
    else stC) with hstD
  set stE := KVStore.removeFromDocumentIndex id stD with hstE
  set kv2 := kvDelete stE (generateKey "doc" id) with hkv2
  have hrun : KVStore.DeleteDocument now id kv = .ok kv2 := by
    rw [hkv2, hstE, hstD, hstC, hstB, hstA]
    exact deleteDocument_ok now id kv doc hdoc
  have ha : KVStore.GetDocument kv2 id = .ok none := by
    rw [KVStore.GetDocument, hkv2, kvGet_delete_self]
  have hA_ann : ∀ aid, kvGet stA (generateKey "annotation" aid) =
      kvGet kv (generateKey "annotation" aid) := by
    intro aid
    rw [hstA]
    exact kvGet_collFold_other now id _ kv _ (fun cid => gk_ann_ne_coll aid cid)
  have hA' : ∀ aid a, kvGet stA (generateKey "annotation" aid) = some (.annBlob a) →
      a.id = aid := by
    intro aid a h
    rw [hA_ann aid] at h
    exact hA aid a h
  have hannB : KVStore.GetAnnotations stB id = [] := by
    rw [hstB]
    exact getAnnotations_annFold stA id hA'
  have hb : KVStore.GetAnnotations kv2 id = [] := by
    have hidx : kvGet kv2 (generateKey "index" ("doc:annotations:" ++ id)) =
        kvGet stB (generateKey "index" ("doc:annotations:" ++ id)) := by
      rw [hkv2, kvGet_delete_other _ _ _ ((gk_doc_ne_index id _).symm), hstE,
        kvGet_removeFromDocumentIndex_other _ _ _ (gk_idxann_ne_documents id), hstD]
      split
      · rw [kvGet_delete_other _ _ _ ((gk_source_ne_index _ _).symm), hstC,
          kvGet_delete_other _ _ _ ((gk_path_ne_index _ _).symm)]
      · rw [hstC, kvGet_delete_other _ _ _ ((gk_path_ne_index _ _).symm)]
    have hblob : ∀ aid, kvGet kv2 (generateKey "annotation" aid) =
        kvGet stB (generateKey "annotation" aid) := by
      intro aid
      rw [hkv2, kvGet_delete_other _ _ _ (gk_ann_ne_doc aid id), hstE,
        kvGet_removeFromDocumentIndex_other _ _ _ (gk_ann_ne_index aid "documents"), hstD]
      split
      · rw [kvGet_delete_other _ _ _ (gk_ann_ne_source aid _), hstC,
          kvGet_delete_other _ _ _ (gk_ann_ne_path aid doc.path)]
      · rw [hstC, kvGet_delete_other _ _ _ (gk_ann_ne_path aid doc.path)]
    rw [getAnnotations_frame stB kv2 id hidx hblob, hannB]
  have hc2 : id ∉ KVStore.documentRoster kv2 := by
    have hroster : KVStore.documentRoster kv2 = KVStore.documentRoster stE := by
      rw [KVStore.documentRoster, KVStore.documentRoster, hkv2,
        kvGet_delete_other _ _ _ ((gk_doc_ne_index id "documents").symm)]
    rw [hroster, hstE]
    exact documentRoster_remove_self id stD
  have he : kvGet kv2 (generateKey "doc:path" doc.path) = none := by
    by_cases hpd : generateKey "doc:path" doc.path = generateKey "doc" id
    · rw [hkv2, hpd, kvGet_delete_self]
    · rw [hkv2, kvGet_delete_other _ _ _ hpd, hstE,
        kvGet_removeFromDocumentIndex_other _ _ _ (gk_path_ne_index doc.path "documents"), hstD]
      split
      · rw [kvGet_delete_other _ _ _ (gk_path_ne_source doc.path _), hstC, kvGet_delete_self]
      · rw [hstC, kvGet_delete_self]
  have hf : doc.source ≠ "" ∧ doc.sourceID ≠ "" →
      kvGet kv2 (generateKey "doc:source" (doc.source ++ ":" ++ doc.sourceID)) = none := by
    intro hsrc
    by_cases hsd2 : generateKey "doc:source" (doc.source ++ ":" ++ doc.sourceID) =
        generateKey "doc" id
    · rw [hkv2, hsd2, kvGet_delete_self]
    · rw [hkv2, kvGet_delete_other _ _ _ hsd2, hstE,
        kvGet_removeFromDocumentIndex_other _ _ _ (gk_source_ne_index _ "documents"), hstD,
        if_pos hsrc, kvGet_delete_self]
  have hd : ∀ c, c ∈ KVStore.ListCollections kv → ∀ c2,
      kvGet kv2 (generateKey "collection" c.id) = some (.collBlob c2) →
      id ∉ c2.documentIDs := by
    intro c hc c2 hget
    have h2 : kvGet stC (generateKey "collection" c.id) =
        kvGet stA (generateKey "collection" c.id) := by
      rw [hstC, kvGet_delete_other _ _ _ (gk_coll_ne_path c.id doc.path), hstB]
      exact kvGet_annFold_other _ _ _ (fun aid => gk_coll_ne_ann c.id aid)
        (fun y => gk_collection_ne_index c.id ("doc:annotations:" ++ y))
    have hchain : kvGet kv2 (generateKey "collection" c.id) =
        kvGet stA (generateKey "collection" c.id) := by
      rw [hkv2, kvGet_delete_other _ _ _ (gk_coll_ne_doc c.id id), hstE,
        kvGet_removeFromDocumentIndex_other _ _ _ (gk_collection_ne_index c.id "documents"),
        hstD]
      split
      · rw [kvGet_delete_other _ _ _ (gk_coll_ne_source c.id _)]
        exact h2
      · exact h2
    rw [hchain, hstA] at hget
    exact collFold_removes now id (KVStore.ListCollections kv) kv c hc hC c2 hget
  have hnow2 : ∀ now2, KVStore.DeleteDocument now2 id kv2 = .ok kv2 := by
    intro now2
    simp only [KVStore.DeleteDocument, ha]
  have hkvx : ∀ kvx, KVStore.GetDocument kvx id = .ok none →
      KVStore.DeleteDocument now id kvx = .ok kvx := by
    intro kvx h
    simp only [KVStore.DeleteDocument, h]
  have hsd : ∀ d, d ∈ (Store.DeleteDocument id db).documents → d.id ≠ id := by
    intro d hdmem
    have h1 := List.of_mem_filter hdmem
    simpa using h1
  have hsa : Store.GetAnnotations (Store.DeleteDocument id db) id = [] := by
    rw [Store.GetAnnotations]
    have h1 : (Store.DeleteDocument id db).annotations.filter
        (fun a => a.documentID == id) = [] := by
      apply List.filter_eq_nil_iff.mpr
      intro a hamem
      have h2 := List.of_mem_filter hamem
      simp only [bne_iff_ne, ne_eq] at h2
      simp [h2]
    rw [h1]
    rfl
  have hscd : ∀ r, r ∈ (Store.DeleteDocument id db).collectionDocuments →
      r.documentID ≠ id := by
    intro r hrmem
    have h1 := List.of_mem_filter hrmem
    simpa using h1
  exact ⟨kv2, hrun, ha, hb, hc2, he, hf, hd, hnow2, hkvx, hsd, hsa, hscd,
    sqlDelete_idem id db⟩
/-- C5 witness: the cascade theorem applied to the concrete store. -/
theorem C5_deleteDocument_cascade_witness :
    ∃ kv2, KVStore.DeleteDocument 9 "d1" c5kv = .ok kv2 ∧
      KVStore.GetDocument kv2 "d1" = .ok none ∧
      KVStore.GetAnnotations kv2 "d1" = [] ∧
      "d1" ∉ KVStore.documentRoster kv2 ∧
      kvGet kv2 (generateKey "doc:path" c5doc.path) = none ∧
      (c5doc.source ≠ "" ∧ c5doc.sourceID ≠ "" →
        kvGet kv2 (generateKey "doc:source" (c5doc.source ++ ":" ++ c5doc.sourceID)) = none) ∧
      (∀ c, c ∈ KVStore.ListCollections c5kv → ∀ c2,
        kvGet kv2 (generateKey "collection" c.id) = some (.collBlob c2) →
        "d1" ∉ c2.documentIDs) ∧
      (∀ now2, KVStore.DeleteDocument now2 "d1" kv2 = .ok kv2) ∧
      (∀ kvx, KVStore.GetDocument kvx "d1" = .ok none →
        KVStore.DeleteDocument 9 "d1" kvx = .ok kvx) ∧
      (∀ d, d ∈ (Store.DeleteDocument "d1" c5db).documents → d.id ≠ "d1") ∧
      Store.GetAnnotations (Store.DeleteDocument "d1" c5db) "d1" = [] ∧
      (∀ r, r ∈ (Store.DeleteDocument "d1" c5db).collectionDocuments →
        r.documentID ≠ "d1") ∧
      Store.DeleteDocument "d1" (Store.DeleteDocument "d1" c5db) =
        Store.DeleteDocument "d1" c5db :=
  C5_deleteDocument_cascade 9 "d1" c5kv c5doc c5db
    (by with_unfolding_all rfl) (by with_unfolding_all rfl) (by with_unfolding_all rfl)
